import Mathlib

/-
  Verification of the LLM_API_Distributor backend core against its
  specification.  The Python sources under backend/app are shallowly
  embedded: pure fragments become Lean functions, stateful fragments become
  explicit state-passing functions, machine/float arithmetic is modelled
  over ℚ and ℤ, fallible code returns Except/Option.
-/

set_option maxRecDepth 4000

/-! ## Python primitives -/

/-- Python `int(x)` on a float/rational: truncation toward zero. -/
def pyInt (q : ℚ) : ℤ := if 0 ≤ q then Int.floor q else -Int.floor (-q)

/-- Python whitespace for `str.split()` / `str.strip()`:
space, tab, newline, carriage return, vertical tab, form feed. -/
def isPySpace (c : Char) : Bool :=
  c = ' ' || c = '\t' || c = '\n' || c = '\r' || c = '\x0b' || c = '\x0c'

/-! ## Delivery backoff — workers/tasks.py `_calculate_backoff_with_jitter`

The source computes `base_delay = base ** attempt`, draws
`jitter ∈ [-0.2*base_delay, 0.2*base_delay]`, and returns
`int(min(base_delay + jitter, 60))`.  The random draw is modelled by an
explicit `jitter` argument ranging over the same interval. -/

def calculate_backoff_with_jitter (base : ℚ) (attempt : ℕ) (jitter : ℚ) : ℤ :=
  let baseDelay : ℚ := base ^ attempt
  let maxDelay : ℚ := 60
  let delay : ℚ := min (baseDelay + jitter) maxDelay
  pyInt delay

/-- The spec's formula for the delivery retry countdown:
`clamp(base^attempt + jitter, 1 s, 60 s)` (a rational, no truncation, with a
lower clamp at 1). -/
def backoffClaimFormula (base : ℚ) (attempt : ℕ) (jitter : ℚ) : ℚ :=
  max 1 (min (base ^ attempt + jitter) 60)

/-! ## Delivery worker — workers/tasks.py `_deliver_to_partner_async`

One Celery task execution is modelled by `deliver_attempt`.  The body
increments `attempts`, POSTs, and classifies the outcome; a retry is
requested by `raise task.retry(countdown=...)`.  Celery's `Task.retry`
publishes the retry to the queue via `apply_async` **and then** raises
`Retry`.  The whole body sits inside `try: ... except Exception:` whose
handler sets `status = "failed"` and overwrites `last_error` with
`"Unexpected error: ..."`; the handler intercepts the raised `Retry` (an
`Exception` subclass) — but the retry is already on the queue, so the
retried execution still runs after the countdown.  The inner
classification (before the catch-all) is `deliver_attempt_inner`; the
observable per-task behaviour, paired with whether a retry was enqueued,
is `deliver_attempt`. -/

inductive PartnerOutcome where
  | httpStatus (code : ℕ) (body : String)
  | timeout
  | networkError (msg : String)

inductive DeliveryStatus where
  | pending
  | succeeded
  | failed
deriving DecidableEq

structure DeliveryState where
  status : DeliveryStatus
  attempts : ℕ
  lastError : Option String
  responseBody : Option String
deriving DecidableEq

/-- Fresh Delivery row as created by the export path. -/
def dInit : DeliveryState := ⟨.pending, 0, none, none⟩

/-- Python `response.text[:5000]`. -/
def truncateBody (s : String) : String := (s.toList.take 5000).asString

/-- Truncation `response_body[:500]` used inside the 5xx last_error message. -/
def truncateErr (s : String) : String := (s.toList.take 500).asString

/-- What the body of the task does after `attempts` was already incremented:
either it returns (`done`), or `task.retry` raises (`retryRaised`). -/
inductive AttemptSignal where
  | done (result : String)
  | retryRaised (countdown : ℤ)

def deliver_attempt_inner (maxAttempts : ℕ) (jitter : ℚ) (d : DeliveryState)
    (o : PartnerOutcome) : DeliveryState × AttemptSignal :=
  match o with
  | .httpStatus c body =>
    let rb := truncateBody body
    if 200 ≤ c ∧ c < 300 then
      ({ d with status := .succeeded, responseBody := some rb }, .done "succeeded")
    else if 400 ≤ c ∧ c < 500 then
      ({ d with status := .failed,
                lastError := some ("HTTP " ++ toString c ++ ": " ++ rb),
                responseBody := some rb }, .done "failed")
    else
      let d1 := { d with lastError := some ("HTTP " ++ toString c ++ ": " ++ truncateErr rb) }
      if d1.attempts < maxAttempts then
        (d1, .retryRaised (calculate_backoff_with_jitter 2 d1.attempts jitter))
      else
        ({ d1 with status := .failed }, .done "failed")
  | .timeout =>
    let d1 := { d with lastError := some "Timeout after delivery_timeout s" }
    if d1.attempts < maxAttempts then
      (d1, .retryRaised (calculate_backoff_with_jitter 2 d1.attempts jitter))
    else
      ({ d1 with status := .failed }, .done "failed")
  | .networkError m =>
    let d1 := { d with lastError := some ("Network error: " ++ m) }
    if d1.attempts < maxAttempts then
      (d1, .retryRaised (calculate_backoff_with_jitter 2 d1.attempts jitter))
    else
      ({ d1 with status := .failed }, .done "failed")

/-- One observed task execution: `delivery.attempts += 1` happens before the
`try`, then the body runs.  When `task.retry` fires, the retry is already
enqueued; the raised `Retry` is then intercepted by the trailing
`except Exception` handler, which commits `status = "failed"` and
overwrites `last_error` with the catch-all message before the enqueued
retry runs.  The boolean reports whether a retry was enqueued. -/
def deliver_attempt (maxAttempts : ℕ) (jitter : ℚ) (d : DeliveryState)
    (o : PartnerOutcome) : DeliveryState × Bool :=
  let d1 := { d with attempts := d.attempts + 1 }
  let (d2, sig) := deliver_attempt_inner maxAttempts jitter d1 o
  match sig with
  | .done _ => (d2, false)
  | .retryRaised _ =>
    ({ d2 with status := .failed,
               lastError := some "Unexpected error: Retry" }, true)

/-- The delivery over a queue-supplied sequence of partner outcomes: the next
outcome is consumed exactly when the previous task execution enqueued a
retry. -/
def deliver_run (maxAttempts : ℕ) (jitters : List ℚ) (d : DeliveryState) :
    List PartnerOutcome → DeliveryState
  | [] => d
  | o :: os =>
    let r := deliver_attempt maxAttempts (jitters.headD 0) d o
    if r.2 then deliver_run maxAttempts jitters.tail r.1 os else r.1

/-- HTTP 2xx outcome. -/
def is2xxOutcome : PartnerOutcome → Bool
  | .httpStatus c _ => decide (200 ≤ c ∧ c < 300)
  | _ => false

/-- HTTP 4xx outcome (terminal client error). -/
def is4xxOutcome : PartnerOutcome → Bool
  | .httpStatus c _ => decide (400 ≤ c ∧ c < 500)
  | _ => false

/-- The outcomes the worker classifies as retriable: any non-2xx/non-4xx
status (5xx and others), timeout, network error. -/
def isRetriableOutcome : PartnerOutcome → Bool
  | .httpStatus c _ => !decide (200 ≤ c ∧ c < 300) && !decide (400 ≤ c ∧ c < 500)
  | .timeout => true
  | .networkError _ => true

/-! ## Execution worker entry — workers/tasks.py `_execute_run_item_async`
(lines 40-63).  The run item is loaded; a missing id returns early; an
existing item is unconditionally transitioned to `running` with
`attempt_count` incremented — there is no check of the current status. -/

inductive RunItemStatus where
  | pending
  | running
  | succeeded
  | failed
  | skipped
deriving DecidableEq

structure RunItemRec where
  status : RunItemStatus
  attemptCount : ℕ
  lastError : Option String
deriving DecidableEq

/-- The load-and-transition head of the worker task: second component says
whether execution proceeds. -/
def execute_run_item_start : Option RunItemRec → Option RunItemRec × Bool
  | none => (none, false)
  | some r => (some { r with status := .running, attemptCount := r.attemptCount + 1 }, true)

/-! ## Rate limiter — core/rate_limit.py `TokenBucket`

`_try_acquire` runs a Lua script against the bucket hash: missing state
defaults to `(burst, now)`; `refill = floor(elapsed / refill_interval)`;
`tokens = min(burst, tokens + refill)`; if enough tokens the decremented
state is stored with `last_update = now`, otherwise **nothing is written**
and 0 is returned.  `acquire` loops: try, check elapsed ≥ timeout, sleep
0.1 s, retry. -/

structure BucketState where
  tokens : ℚ
  lastUpdate : ℚ
deriving DecidableEq

def try_acquire (burst refillInterval n now : ℚ) (st : Option BucketState) :
    Bool × Option BucketState :=
  let tokens0 := (st.map BucketState.tokens).getD burst
  let last := (st.map BucketState.lastUpdate).getD now
  let refill : ℤ := Int.floor ((now - last) / refillInterval)
  let tokens := min burst (tokens0 + (refill : ℚ))
  if n ≤ tokens then (true, some ⟨tokens - n, now⟩)
  else (false, st)

/-- Rational remainder `a - b * floor (a / b)`, the `mod` of the spec's
refill formula. -/
def qmod (a b : ℚ) : ℚ := a - b * (Int.floor (a / b) : ℚ)

/-- Modelled from the spec's words (§4.2 steps 2 and 4), for comparison with
`try_acquire`: the same refill, but `last_update := now - ((now -
last_update) mod (1/qps))`, and on shortage the refill-only state is
persisted. -/
def try_acquire_spec (burst refillInterval n now : ℚ) (st : Option BucketState) :
    Bool × Option BucketState :=
  let tokens0 := (st.map BucketState.tokens).getD burst
  let last := (st.map BucketState.lastUpdate).getD now
  let refill : ℤ := Int.floor ((now - last) / refillInterval)
  let tokens := min burst (tokens0 + (refill : ℚ))
  let newLast := now - qmod (now - last) refillInterval
  if n ≤ tokens then (true, some ⟨tokens - n, newLast⟩)
  else (false, some ⟨tokens, newLast⟩)

/-- The `acquire` polling loop.  Wall-clock readings are supplied as a
schedule: pair `(t, tc)` gives the `time.time()` used for the try and for
the deadline check of one iteration. -/
def acquire_run (burst refillInterval n timeout start : ℚ)
    (st : Option BucketState) : List (ℚ × ℚ) → Bool × Option BucketState
  | [] => (false, st)
  | (t, tc) :: rest =>
    let r := try_acquire burst refillInterval n t st
    if r.1 then (true, r.2)
    else if timeout ≤ tc - start then (false, r.2)
    else acquire_run burst refillInterval n timeout start r.2 rest

/-! ## JSON values

Free-form Python/JSON data (`provider_settings`, question metadata, parsed
provider replies) is modelled by `Json`.  Numbers are restricted to
integers: no claim under verification depends on non-integral numerics.
Objects are association lists; lists built by the embedded `json.loads`
carry unique keys, like Python dicts. -/

inductive Json where
  | null
  | bool (b : Bool)
  | num (n : ℤ)
  | str (s : String)
  | arr (elements : List Json)
  | obj (members : List (String × Json))

/-- Python string `<`: lexicographic comparison by code point. -/
def charListLT : List Char → List Char → Bool
  | [], [] => false
  | [], _ :: _ => true
  | _ :: _, [] => false
  | a :: as, b :: bs =>
    if a.toNat < b.toNat then true
    else if b.toNat < a.toNat then false
    else charListLT as bs

def strLT (a b : String) : Bool := charListLT a.data b.data

/-- Key order used by `json.dumps(..., sort_keys=True)` and Python
`sorted`: lexicographic by code point on the member's key. -/
def keyLE (p q : String × Json) : Prop := strLT q.1 p.1 = false

instance : DecidableRel keyLE := fun p q => inferInstanceAs (Decidable (strLT q.1 p.1 = false))

theorem charListLT_asymm : ∀ a b : List Char,
    charListLT a b = true → charListLT b a = false
  | [], [] => by simp [charListLT]
  | [], _ :: _ => by simp [charListLT]
  | _ :: _, [] => by simp [charListLT]
  | a :: as, b :: bs => by
    intro h
    simp only [charListLT] at h ⊢
    by_cases h₁ : a.toNat < b.toNat
    · simp [Nat.lt_asymm h₁, h₁]
    · by_cases h₂ : b.toNat < a.toNat
      · simp [h₁, h₂] at h
      · simp only [h₁, h₂, if_false] at h ⊢
        exact charListLT_asymm as bs h

theorem charListLT_trans : ∀ a b c : List Char,
    charListLT a b = true → charListLT b c = true → charListLT a c = true
  | [], [], _ => by intro h; simp [charListLT] at h
  | [], _ :: _, [] => by intro _ h; simp [charListLT] at h
  | [], _ :: _, _ :: _ => by intros; simp [charListLT]
  | _ :: _, [], _ => by intro h; simp [charListLT] at h
  | _ :: _, _ :: _, [] => by intro _ h; simp [charListLT] at h
  | a :: as, b :: bs, c :: cs => by
    intro h₁ h₂
    simp only [charListLT] at h₁ h₂ ⊢
    by_cases hab : a.toNat < b.toNat
    · by_cases hbc : b.toNat < c.toNat
      · simp [Nat.lt_trans hab hbc]
      · by_cases hcb : c.toNat < b.toNat
        · simp [hbc, hcb] at h₂
        · have hac : a.toNat < c.toNat := by omega
          simp [hac]
    · by_cases hba : b.toNat < a.toNat
      · simp [hab, hba] at h₁
      · simp only [hab, hba, if_false] at h₁
        by_cases hbc : b.toNat < c.toNat
        · have hac : a.toNat < c.toNat := by omega
          simp [hac]
        · by_cases hcb : c.toNat < b.toNat
          · simp [hbc, hcb] at h₂
          · simp only [hbc, hcb, if_false] at h₂
            have hac : ¬ a.toNat < c.toNat := by omega
            have hca : ¬ c.toNat < a.toNat := by omega
            simp only [hac, hca, if_false]
            exact charListLT_trans as bs cs h₁ h₂

theorem charListLT_conn : ∀ a b : List Char,
    charListLT a b = false → charListLT b a = false → a = b
  | [], [] => by intros; rfl
  | [], _ :: _ => by intro h; simp [charListLT] at h
  | _ :: _, [] => by intro _ h; simp [charListLT] at h
  | a :: as, b :: bs => by
    intro h₁ h₂
    simp only [charListLT] at h₁ h₂
    by_cases hab : a.toNat < b.toNat
    · simp [hab] at h₁
    · by_cases hba : b.toNat < a.toNat
      · simp [hab, hba] at h₂
      · simp only [hab, hba, if_false] at h₁ h₂
        have ht : a.toNat = b.toNat := by omega
        have hv : a = b :=
          Char.ofNat_toNat a ▸ Char.ofNat_toNat b ▸ congrArg Char.ofNat ht
        rw [hv, charListLT_conn as bs h₁ h₂]

theorem strLT_total (a b : String) : strLT a b = false ∨ strLT b a = false := by
  cases h : strLT a b
  · exact Or.inl rfl
  · exact Or.inr (charListLT_asymm _ _ h)

instance : IsTotal (String × Json) keyLE :=
  ⟨fun p q => strLT_total q.1 p.1⟩

instance : IsTrans (String × Json) keyLE := by
  refine ⟨fun p q r h₁ h₂ => ?_⟩
  unfold keyLE strLT at h₁ h₂ ⊢
  cases hx : charListLT r.1.data p.1.data
  · rfl
  · exfalso
    cases hy : charListLT p.1.data q.1.data
    · have hpq : p.1.data = q.1.data := charListLT_conn _ _ hy h₁
      rw [hpq] at hx
      rw [hx] at h₂
      exact Bool.true_eq_false.mp h₂
    · have := charListLT_trans _ _ _ hx hy
      rw [this] at h₂
      exact Bool.true_eq_false.mp h₂

mutual

/-- Recursively sort object keys: the canonical form whose plain
serialization is exactly `json.dumps(x, sort_keys=True)`. -/
def Json.canon : Json → Json
  | .null => .null
  | .bool b => .bool b
  | .num n => .num n
  | .str s => .str s
  | .arr xs => .arr (canonElems xs)
  | .obj kvs => .obj (List.insertionSort keyLE (canonMembers kvs))
termination_by structural j => j

def canonElems : List Json → List Json
  | [] => []
  | x :: xs => Json.canon x :: canonElems xs
termination_by structural l => l

def canonMembers : List (String × Json) → List (String × Json)
  | [] => []
  | p :: ps => (p.1, Json.canon p.2) :: canonMembers ps
termination_by structural l => l

end

/-! ### Serialization (json.dumps, default separators) -/

def hexChars : List Char := "0123456789abcdef".toList

def toHexChar (n : ℕ) : Char := hexChars.getD n '0'

def hex4 (n : ℕ) : List Char :=
  [toHexChar (n / 4096 % 16), toHexChar (n / 256 % 16), toHexChar (n / 16 % 16), toHexChar (n % 16)]

/-- The `json.dumps` escaping of one character (`ensure_ascii=True`). -/
def jsonEscapeChar (c : Char) : List Char :=
  if c = '"' then ['\\', '"']
  else if c = '\\' then ['\\', '\\']
  else if c = '\n' then ['\\', 'n']
  else if c = '\t' then ['\\', 't']
  else if c = '\r' then ['\\', 'r']
  else if c = '\x08' then ['\\', 'b']
  else if c = '\x0c' then ['\\', 'f']
  else if c.toNat < 32 then '\\' :: 'u' :: hex4 c.toNat
  else if c.toNat < 127 then [c]
  else if c.toNat < 65536 then '\\' :: 'u' :: hex4 c.toNat
  else
    let n := c.toNat - 65536
    ('\\' :: 'u' :: hex4 (55296 + n / 1024)) ++ ('\\' :: 'u' :: hex4 (56320 + n % 1024))

def quoteJsonStr (s : String) : String :=
  ('"' :: (s.toList.flatMap jsonEscapeChar ++ ['"'])).asString

mutual

/-- Plain `json.dumps` with the default separators `", "` and `": "`,
keeping member order as stored. -/
def Json.dumps : Json → String
  | .null => "null"
  | .bool b => if b then "true" else "false"
  | .num n => toString n
  | .str s => quoteJsonStr s
  | .arr xs => "[" ++ dumpsElems xs ++ "]"
  | .obj kvs => "\x7b" ++ dumpsMembers kvs ++ "\x7d"
termination_by structural j => j

def dumpsElems : List Json → String
  | [] => ""
  | [x] => Json.dumps x
  | x :: y :: xs => Json.dumps x ++ ", " ++ dumpsElems (y :: xs)
termination_by structural l => l

def dumpsMembers : List (String × Json) → String
  | [] => ""
  | [p] => quoteJsonStr p.1 ++ ": " ++ Json.dumps p.2
  | p :: q :: ps => quoteJsonStr p.1 ++ ": " ++ Json.dumps p.2 ++ ", " ++ dumpsMembers (q :: ps)
termination_by structural l => l

end

/-- Serialization `json.dumps(x, sort_keys=True)`: object keys sorted
lexicographically at every nesting level. -/
def Json.dumpsSorted (j : Json) : String := (Json.canon j).dumps

/-- Python dict read `d.get(k)` / `d[k]` on the association-list model. -/
def jsonLookup (kvs : List (String × Json)) (k : String) : Option Json :=
  (kvs.find? (fun p => p.1 == k)).map Prod.snd

/-- Python `{**a, **b}`: keys of `a` in order with values overridden from
`b`, followed by the keys only in `b`. -/
def mergeKVs (a b : List (String × Json)) : List (String × Json) :=
  a.map (fun p => (p.1, (jsonLookup b p.1).getD p.2))
    ++ b.filter (fun q => (jsonLookup a q.1).isNone)

/-! ## Text normalization — utils/hashing.py

`normalized_text = " ".join(question_text.lower().split())`. -/

def splitWsAux (acc : List Char) : List Char → List (List Char)
  | [] => if acc.isEmpty then [] else [acc.reverse]
  | c :: cs =>
    if isPySpace c then
      if acc.isEmpty then splitWsAux [] cs else acc.reverse :: splitWsAux [] cs
    else splitWsAux (c :: acc) cs

/-- Python `str.split()` (no argument): split on whitespace runs, dropping
empty pieces. -/
def pySplit (s : String) : List String := (splitWsAux [] s.toList).map List.asString

/-- Python `str.lower()`; ASCII letters (the model of `.lower()`). -/
def pyLower (s : String) : String := (s.toList.map Char.toLower).asString

def normalizeText (s : String) : String := String.intercalate " " (pySplit (pyLower s))

/-! ## SHA-256 — `hashlib.sha256(...).hexdigest()` over 32-bit words as ℕ -/

def w32 (x : ℕ) : ℕ := x % 4294967296

def rotr (n x : ℕ) : ℕ := w32 ((x >>> n) ||| (x <<< (32 - n)))

def shaCh (x y z : ℕ) : ℕ := (x &&& y) ^^^ ((x ^^^ 4294967295) &&& z)

def shaMaj (x y z : ℕ) : ℕ := (x &&& y) ^^^ (x &&& z) ^^^ (y &&& z)

def bigSigma0 (x : ℕ) : ℕ := rotr 2 x ^^^ rotr 13 x ^^^ rotr 22 x

def bigSigma1 (x : ℕ) : ℕ := rotr 6 x ^^^ rotr 11 x ^^^ rotr 25 x

def smallSigma0 (x : ℕ) : ℕ := rotr 7 x ^^^ rotr 18 x ^^^ (x >>> 3)

def smallSigma1 (x : ℕ) : ℕ := rotr 17 x ^^^ rotr 19 x ^^^ (x >>> 10)

/-- The 64 SHA-256 round constants of FIPS 180-4, written in decimal. -/
def shaK : List ℕ :=
  [1116352408, 1899447441, 3049323471, 3921009573,
   961987163, 1508970993, 2453635748, 2870763221,
   3624381080, 310598401, 607225278, 1426881987,
   1925078388, 2162078206, 2614888103, 3248222580,
   3835390401, 4022224774, 264347078, 604807628,
   770255983, 1249150122, 1555081692, 1996064986,
   2554220882, 2821834349, 2952996808, 3210313671,
   3336571891, 3584528711, 113926993, 338241895,
   666307205, 773529912, 1294757372, 1396182291,
   1695183700, 1986661051, 2177026350, 2456956037,
   2730485921, 2820302411, 3259730800, 3345764771,
   3516065817, 3600352804, 4094571909, 275423344,
   430227734, 506948616, 659060556, 883997877,
   958139571, 1322822218, 1537002063, 1747873779,
   1955562222, 2024104815, 2227730452, 2361852424,
   2428436474, 2756734187, 3204031479, 3329325298]

structure Hash8 where
  h0 : ℕ
  h1 : ℕ
  h2 : ℕ
  h3 : ℕ
  h4 : ℕ
  h5 : ℕ
  h6 : ℕ
  h7 : ℕ

def shaH0 : Hash8 :=
  ⟨1779033703, 3144134277, 1013904242, 2773480762, 1359893119, 2600822924, 528734635, 1541459225⟩

def bytesToWords (block : List ℕ) : List ℕ :=
  (List.range 16).map fun i =>
    block.getD (4 * i) 0 * 16777216 + block.getD (4 * i + 1) 0 * 65536 +
      block.getD (4 * i + 2) 0 * 256 + block.getD (4 * i + 3) 0

def msgSchedule (ws : List ℕ) : List ℕ :=
  (List.range 48).foldl
    (fun acc i =>
      acc ++ [w32 (smallSigma1 (acc.getD (i + 14) 0) + acc.getD (i + 9) 0 +
        smallSigma0 (acc.getD (i + 1) 0) + acc.getD i 0)])
    ws

def shaRound (st : Hash8) (ki wi : ℕ) : Hash8 :=
  let t1 := w32 (st.h7 + bigSigma1 st.h4 + shaCh st.h4 st.h5 st.h6 + ki + wi)
  let t2 := w32 (bigSigma0 st.h0 + shaMaj st.h0 st.h1 st.h2)
  ⟨w32 (t1 + t2), st.h0, st.h1, st.h2, w32 (st.h3 + t1), st.h4, st.h5, st.h6⟩

def compressBlock (st : Hash8) (block : List ℕ) : Hash8 :=
  let ws := msgSchedule (bytesToWords block)
  let f := (List.range 64).foldl (fun s i => shaRound s (shaK.getD i 0) (ws.getD i 0)) st
  ⟨w32 (st.h0 + f.h0), w32 (st.h1 + f.h1), w32 (st.h2 + f.h2), w32 (st.h3 + f.h3),
   w32 (st.h4 + f.h4), w32 (st.h5 + f.h5), w32 (st.h6 + f.h6), w32 (st.h7 + f.h7)⟩

def shaPad (msg : List ℕ) : List ℕ :=
  let bitLen := 8 * msg.length
  let padZeros := (119 - msg.length % 64) % 64
  msg ++ [128] ++ List.replicate padZeros 0 ++
    (List.range 8).map (fun i => (bitLen >>> (8 * (7 - i))) % 256)

def chunksAux : ℕ → List ℕ → List (List ℕ)
  | 0, _ => []
  | _, [] => []
  | fuel + 1, c :: rest => ((c :: rest).take 64) :: chunksAux fuel ((c :: rest).drop 64)

/-- Split into 64-byte blocks (`fuel` bounds the number of blocks). -/
def chunks64 (l : List ℕ) : List (List ℕ) := chunksAux l.length l

def sha256Digest (msg : List ℕ) : Hash8 :=
  (chunks64 (shaPad msg)).foldl compressBlock shaH0

def wordToHex (w : ℕ) : List Char :=
  (List.range 8).map fun i => toHexChar ((w >>> (4 * (7 - i))) % 16)

def sha256HexOfBytes (msg : List ℕ) : String :=
  let d := sha256Digest msg
  (wordToHex d.h0 ++ wordToHex d.h1 ++ wordToHex d.h2 ++ wordToHex d.h3 ++
   wordToHex d.h4 ++ wordToHex d.h5 ++ wordToHex d.h6 ++ wordToHex d.h7).asString

/-- UTF-8 encoding of one character. -/
def utf8EncodeChar (c : Char) : List ℕ :=
  let n := c.toNat
  if n < 128 then [n]
  else if n < 2048 then [192 + n / 64, 128 + n % 64]
  else if n < 65536 then [224 + n / 4096, 128 + n / 64 % 64, 128 + n % 64]
  else [240 + n / 262144, 128 + n / 4096 % 64, 128 + n / 64 % 64, 128 + n % 64]

def utf8Bytes (s : String) : List ℕ := s.toList.flatMap utf8EncodeChar

/-- Python `hashlib.sha256(text.encode("utf-8")).hexdigest()`. -/
def sha256Hex (s : String) : String := sha256HexOfBytes (utf8Bytes s)

/-! ## Fingerprint — utils/hashing.py `compute_idempotency_hash` -/

def compute_idempotency_hash (provider model promptVersion questionId personaId
    questionText : String) (providerSettings : Json) : String :=
  let normalizedText := normalizeText questionText
  let settingsJson := Json.dumpsSorted providerSettings
  let components := [provider, model, promptVersion, questionId, personaId,
    normalizedText, settingsJson]
  sha256Hex (String.intercalate "|" components)

/-! ## Key-permutation invariance of the canonical serialization -/

/-- Strict key order. -/
def keyLT (p q : String × Json) : Prop := strLT p.1 q.1 = true

instance : IsAntisymm (String × Json) keyLT := by
  refine ⟨fun p q h₁ h₂ => ?_⟩
  unfold keyLT strLT at h₁ h₂
  have hf := charListLT_asymm _ _ h₁
  rw [h₂] at hf
  simp at hf

theorem canonMembers_eq_map (l : List (String × Json)) :
    canonMembers l = l.map (fun p => (p.1, Json.canon p.2)) := by
  induction l with
  | nil => rfl
  | cons p ps ih => simp [canonMembers, ih]

theorem canonElems_eq_map (l : List Json) : canonElems l = l.map Json.canon := by
  induction l with
  | nil => rfl
  | cons x xs ih => simp [canonElems, ih]

theorem string_eq_of_data_eq {a b : String} (h : a.data = b.data) : a = b := by
  cases a
  cases b
  exact congrArg String.mk h

theorem keyLT_of_keyLE_of_ne {p q : String × Json} (h₁ : keyLE p q) (h₂ : p.1 ≠ q.1) :
    keyLT p q := by
  unfold keyLE strLT at h₁
  unfold keyLT strLT
  cases hx : charListLT p.1.data q.1.data
  · exact absurd (string_eq_of_data_eq (charListLT_conn _ _ hx h₁)) h₂
  · rfl

theorem pairwise_keyLT_of_sorted {L : List (String × Json)}
    (hs : List.Sorted keyLE L) (hnd : (L.map Prod.fst).Nodup) :
    List.Pairwise keyLT L := by
  have hne : List.Pairwise (fun p q : String × Json => p.1 ≠ q.1) L :=
    (List.pairwise_map.mp hnd)
  exact (hs.and hne).imp fun h => keyLT_of_keyLE_of_ne h.1 h.2

/-- Sorting by key is permutation-invariant on member lists with distinct
keys. -/
theorem insertionSort_eq_of_perm {l l₂ : List (String × Json)}
    (h : l.Perm l₂) (hnd : (l.map Prod.fst).Nodup) :
    List.insertionSort keyLE l = List.insertionSort keyLE l₂ := by
  have p1 := List.perm_insertionSort keyLE l
  have p2 := List.perm_insertionSort keyLE l₂
  have hperm : List.Perm (List.insertionSort keyLE l) (List.insertionSort keyLE l₂) :=
    p1.trans (h.trans p2.symm)
  have hnd₂ : (l₂.map Prod.fst).Nodup := ((h.map Prod.fst).nodup_iff).mp hnd
  have hnds : ((List.insertionSort keyLE l).map Prod.fst).Nodup :=
    ((p1.map Prod.fst).nodup_iff).mpr hnd
  have hnds₂ : ((List.insertionSort keyLE l₂).map Prod.fst).Nodup :=
    ((p2.map Prod.fst).nodup_iff).mpr hnd₂
  exact List.eq_of_perm_of_sorted hperm
    (pairwise_keyLT_of_sorted (List.sorted_insertionSort keyLE l) hnds)
    (pairwise_keyLT_of_sorted (List.sorted_insertionSort keyLE l₂) hnds₂)

/-- Differ only by a permutation of keys at any nesting level: the claim's
equivalence on settings objects.  `objPerm` permutes the members of one
object (Python dicts have distinct keys, recorded by the `Nodup`
side-condition); `objCons`/`arrCons` push the relation below a constructor;
`ktrans` composes. -/
inductive Json.KeyPerm : Json → Json → Prop where
  | null : KeyPerm .null .null
  | bool (b : Bool) : KeyPerm (.bool b) (.bool b)
  | num (n : ℤ) : KeyPerm (.num n) (.num n)
  | str (s : String) : KeyPerm (.str s) (.str s)
  | arrNil : KeyPerm (.arr []) (.arr [])
  | arrCons {x y : Json} {xs ys : List Json} : KeyPerm x y → KeyPerm (.arr xs) (.arr ys) →
      KeyPerm (.arr (x :: xs)) (.arr (y :: ys))
  | objNil : KeyPerm (.obj []) (.obj [])
  | objCons {k : String} {v w : Json} {l l₂ : List (String × Json)} :
      KeyPerm v w → KeyPerm (.obj l) (.obj l₂) →
      KeyPerm (.obj ((k, v) :: l)) (.obj ((k, w) :: l₂))
  | objPerm {l l₂ : List (String × Json)} :
      l.Perm l₂ → (l.map Prod.fst).Nodup → KeyPerm (.obj l) (.obj l₂)
  | ktrans {a b c : Json} : KeyPerm a b → KeyPerm b c → KeyPerm a c

theorem Json.canon_eq_of_keyPerm {a b : Json} (h : Json.KeyPerm a b) :
    Json.canon a = Json.canon b := by
  induction h with
  | null => rfl
  | bool b => rfl
  | num n => rfl
  | str s => rfl
  | arrNil => rfl
  | arrCons _ _ ihx ihl =>
    simp only [Json.canon] at ihl
    injection ihl with h₁
    simp only [Json.canon, canonElems]
    rw [ihx, h₁]
  | objNil => rfl
  | objCons _ _ ihv ihl =>
    simp only [Json.canon] at ihl
    injection ihl with h₁
    simp only [Json.canon, canonMembers]
    rw [ihv]
    simp only [List.insertionSort]
    rw [h₁]
  | objPerm hp hnd =>
    simp only [Json.canon, Json.obj.injEq]
    refine insertionSort_eq_of_perm ?_ ?_
    · rw [canonMembers_eq_map, canonMembers_eq_map]
      exact hp.map _
    · rw [canonMembers_eq_map, List.map_map]
      exact hnd
  | ktrans _ _ ih₁ ih₂ => exact ih₁.trans ih₂

theorem Json.dumpsSorted_eq_of_keyPerm {a b : Json} (h : Json.KeyPerm a b) :
    Json.dumpsSorted a = Json.dumpsSorted b :=
  congrArg Json.dumps (Json.canon_eq_of_keyPerm h)

/-! ## Run materializer — domain/services/run_service.py
`RunService.materialize_run_items`

For each question of the campaign and each provider spec of the run, a
fingerprint is computed from the spec's `name`/`model`, the prompt version,
the question, and the merged `spec ∪ provider_overrides` settings; a
fingerprint already present among existing RunItems (including ones created
earlier in the same call, visible through autoflush) is skipped, otherwise
a pending RunItem is inserted and counted. -/

structure QuestionRec where
  id : String
  personaId : String
  text : String
  metadata : List (String × Json)

def provider_overrides_of (q : QuestionRec) : Except String (List (String × Json)) :=
  match jsonLookup q.metadata "provider_overrides" with
  | none => .ok []
  | some (.obj kvs) => .ok kvs
  | some _ => .error "TypeError: provider_overrides is not a mapping"

/-- Python `d[k]` expecting a string value. -/
def cfgStr (cfg : List (String × Json)) (k : String) : Except String String :=
  match jsonLookup cfg k with
  | some (.str s) => .ok s
  | some _ => .error ("TypeError: " ++ k ++ " is not a string")
  | none => .error ("KeyError: " ++ k)

def fingerprint_for_item (promptVersion : String) (cfg : List (String × Json))
    (q : QuestionRec) : Except String String := do
  let overrides ← provider_overrides_of q
  let merged := mergeKVs cfg overrides
  let name ← cfgStr cfg "name"
  let model ← cfgStr cfg "model"
  .ok (compute_idempotency_hash name model promptVersion q.id q.personaId q.text (.obj merged))

def exceptList : List (Except String α) → Except String (List α)
  | [] => .ok []
  | .error e :: _ => .error e
  | .ok a :: rest => (exceptList rest).map (a :: ·)

/-- The fingerprint of every (question, provider-spec) pair, in loop order. -/
def run_item_keys (promptVersion : String) (cfgs : List (List (String × Json)))
    (qs : List QuestionRec) : Except String (List String) :=
  exceptList (qs.flatMap fun q => cfgs.map fun c => fingerprint_for_item promptVersion c q)

def materializeStep (st : List String × ℕ) (k : String) : List String × ℕ :=
  if k ∈ st.1 then st else (st.1 ++ [k], st.2 + 1)

/-- The insert-unless-duplicate loop: first component is the fingerprint
table after the call (existing rows plus the created ones), second is the
created count. -/
def materializeFold (existing : List String) (keys : List String) : List String × ℕ :=
  keys.foldl materializeStep (existing, 0)

def materialize_run_items (existing : List String) (promptVersion : String)
    (cfgs : List (List (String × Json))) (qs : List QuestionRec) :
    Except String (List String × ℕ) :=
  (run_item_keys promptVersion cfgs qs).map (materializeFold existing)

theorem materializeStep_mem {st : List String × ℕ} {a k : String} (h : a ∈ st.1) :
    a ∈ (materializeStep st k).1 := by
  unfold materializeStep
  split
  · exact h
  · exact List.mem_append_left _ h

theorem foldl_materializeStep_mem {ks : List String} :
    ∀ {st : List String × ℕ} {a : String}, a ∈ st.1 → a ∈ (ks.foldl materializeStep st).1 := by
  induction ks with
  | nil => intro st a h; exact h
  | cons k ks ih => intro st a h; exact ih (materializeStep_mem h)

theorem mem_foldl_materializeStep {ks : List String} :
    ∀ {st : List String × ℕ} {k : String}, k ∈ ks → k ∈ (ks.foldl materializeStep st).1 := by
  induction ks with
  | nil => intro _ _ h; cases h
  | cons k' ks ih =>
    intro st k h
    rcases List.mem_cons.mp h with rfl | h
    · show k ∈ (ks.foldl materializeStep (materializeStep st k)).1
      refine foldl_materializeStep_mem ?_
      unfold materializeStep
      split
      · assumption
      · exact List.mem_append_right _ (List.mem_singleton.mpr rfl)
    · exact ih h

theorem foldl_materializeStep_noop {ks : List String} :
    ∀ {ex : List String} {n : ℕ}, (∀ k ∈ ks, k ∈ ex) → ks.foldl materializeStep (ex, n) = (ex, n) := by
  induction ks with
  | nil => intro ex n _; rfl
  | cons k ks ih =>
    intro ex n h
    have hk : k ∈ ex := h k (List.mem_cons_self k ks)
    show List.foldl materializeStep (materializeStep (ex, n) k) ks = (ex, n)
    rw [show materializeStep (ex, n) k = (ex, n) from by unfold materializeStep; simp [hk]]
    exact ih fun a ha => h a (List.mem_cons_of_mem _ ha)

/-! ## Provider resolution in the worker — workers/tasks.py lines 81–96

`providers = provider_settings.get("providers", [])`;
`provider_config = providers[0]` (the comment in the source reads
"Simplified: use first provider"); `merged_config = dict(provider_config,
**provider_overrides)`; `provider_name = merged_config["name"]`,
`model = merged_config["model"]`. -/

def pyIndex0 : Json → Except String Json
  | .arr [] => .error "IndexError: list index out of range"
  | .arr (x :: _) => .ok x
  | _ => .error "TypeError: object is not subscriptable"

def asObj : Json → Except String (List (String × Json))
  | .obj kvs => .ok kvs
  | _ => .error "TypeError: not a mapping"

def resolve_provider_config (providerSettings questionMetadata : List (String × Json)) :
    Except String (List (String × Json) × String × String) := do
  let providers := (jsonLookup providerSettings "providers").getD (.arr [])
  let cfgJ ← pyIndex0 providers
  let cfg ← asObj cfgJ
  let ovJ := (jsonLookup questionMetadata "provider_overrides").getD (.obj [])
  let ov ← asObj ovJ
  let merged := mergeKVs cfg ov
  let name ← cfgStr merged "name"
  let model ← cfgStr merged "model"
  .ok (merged, name, model)

theorem jsonLookup_cons (p : String × Json) (l : List (String × Json)) (k : String) :
    jsonLookup (p :: l) k = if p.1 == k then some p.2 else jsonLookup l k := by
  unfold jsonLookup
  rw [List.find?_cons]
  by_cases h : (p.1 == k) = true
  · simp [h]
  · simp [h]

theorem jsonLookup_filtered_none {ov : List (String × Json)} {k : String}
    (g : String × Json → Bool) (h : jsonLookup ov k = none) :
    jsonLookup (ov.filter g) k = none := by
  induction ov with
  | nil => rfl
  | cons p ps ih =>
    rw [jsonLookup_cons] at h
    by_cases hpk : (p.1 == k) = true
    · simp [hpk] at h
    · rw [if_neg (by simpa using hpk)] at h
      rw [List.filter_cons]
      by_cases hg : g p = true
      · rw [if_pos hg, jsonLookup_cons, if_neg (by simpa using hpk)]
        exact ih h
      · rw [if_neg hg]
        exact ih h

theorem jsonLookup_map_override (ov cfg : List (String × Json)) (k : String) :
    jsonLookup (cfg.map fun p => (p.1, (jsonLookup ov p.1).getD p.2)) k =
      (jsonLookup cfg k).map (fun v => (jsonLookup ov k).getD v) := by
  induction cfg with
  | nil => rfl
  | cons p ps ih =>
    rw [List.map_cons, jsonLookup_cons, jsonLookup_cons]
    by_cases hpk : (p.1 == k) = true
    · have hk : p.1 = k := by simpa using hpk
      simp only [hpk, if_pos]
      rw [hk]
      rfl
    · simp only [hpk, Bool.false_eq_true, if_false]
      exact ih

theorem jsonLookup_append (a b : List (String × Json)) (k : String) :
    jsonLookup (a ++ b) k =
      match jsonLookup a k with
      | some v => some v
      | none => jsonLookup b k := by
  induction a with
  | nil => simp [jsonLookup]
  | cons p ps ih =>
    rw [List.cons_append, jsonLookup_cons, jsonLookup_cons]
    by_cases hpk : (p.1 == k) = true
    · simp [hpk]
    · simp only [hpk, Bool.false_eq_true, if_false]
      exact ih

theorem jsonLookup_mergeKVs_of_none {cfg ov : List (String × Json)} {k : String}
    (h : jsonLookup ov k = none) :
    jsonLookup (mergeKVs cfg ov) k = jsonLookup cfg k := by
  unfold mergeKVs
  rw [jsonLookup_append, jsonLookup_map_override, jsonLookup_filtered_none _ h]
  cases hc : jsonLookup cfg k <;> simp [h]

/-! ## Adapter sampling-parameter resolution —
openai_client.py / gemini_client.py / perplexity_client.py `invoke`

Inside `invoke` the name `settings` is bound to the `**settings` keyword
dict, shadowing the imported `app.core.config.settings` module object.  The
lines

    temperature = settings.get("temperature", settings.default_temperature)
    top_p = settings.get("top_p", settings.default_top_p)

therefore evaluate `settings.default_temperature` — an attribute access on a
plain dict — eagerly (Python evaluates the default argument of `.get`
before the call), which raises `AttributeError` on every invocation, before
any request body is built.  `kwargs_attr` models attribute access of a
non-existent attribute on a dict. -/

def kwargs_attr (attrName : String) : Except String Json :=
  .error ("AttributeError: dict object has no attribute " ++ attrName)

/-- Python truthiness of a JSON-like value. -/
def pyTruthy : Json → Bool
  | .null => false
  | .bool b => b
  | .num n => n ≠ 0
  | .str s => !s.data.isEmpty
  | .arr xs => !xs.isEmpty
  | .obj kvs => !kvs.isEmpty

def invoke_resolve_sampling (s : List (String × Json)) : Except String (Json × Json) := do
  let defTemp ← kwargs_attr "default_temperature"
  let temperature := (jsonLookup s "temperature").getD defTemp
  let defTopP ← kwargs_attr "default_top_p"
  let topP := (jsonLookup s "top_p").getD defTopP
  let allowSampling := (jsonLookup s "allow_sampling").getD (.bool false)
  if pyTruthy allowSampling then .ok (temperature, topP) else .ok (.num 0, .num 1)

/-- The same lines with the shadowing slip repaired (defaults read from the
config module, per the source's documented intent: `default_temperature=0.0`,
`default_top_p=1.0`). -/
def invoke_resolve_sampling_intended (defaultTemperature defaultTopP : Json)
    (s : List (String × Json)) : Json × Json :=
  let temperature := (jsonLookup s "temperature").getD defaultTemperature
  let topP := (jsonLookup s "top_p").getD defaultTopP
  let allowSampling := (jsonLookup s "allow_sampling").getD (.bool false)
  if pyTruthy allowSampling then (temperature, topP) else (.num 0, .num 1)

/-- With `allow_sampling` absent or false, the repaired resolution always
yields `temperature = 0`, `top_p = 1`, whatever the caller supplied. -/
theorem invoke_resolve_sampling_intended_override (dt dp : Json)
    (s : List (String × Json))
    (h : jsonLookup s "allow_sampling" = none ∨
         jsonLookup s "allow_sampling" = some (.bool false)) :
    invoke_resolve_sampling_intended dt dp s = (.num 0, .num 1) := by
  unfold invoke_resolve_sampling_intended
  rcases h with h | h <;> rw [h] <;> simp [pyTruthy]

/-! ## Provider reply parsing —
openai_client.py / gemini_client.py `_parse_and_validate_json`

The reply body is searched for a "```json" (else "```") marker anywhere;
the slice between the marker and the next "```" (with Python's `find`
returning -1, i.e. the last character, when no closing marker exists) is
stripped and handed to `json.loads`; the parse is validated against
RESPONSE_JSON_SCHEMA.  On either failure the adapter returns the fallback
object built from the raw body.  `json.loads` is embedded for the fragment
used here: null/true/false, integers (non-integral numbers are outside the
model and treated as a parse failure), strings with the standard escapes
(surrogate-pair recombination unmodelled), arrays, objects (duplicate keys:
last value wins, first position kept). -/

def lbraceChar : Char := Char.ofNat 123

def rbraceChar : Char := Char.ofNat 125

def jsonWsChar (c : Char) : Bool := c = ' ' || c = '\t' || c = '\n' || c = '\r'

def skipWs (s : List Char) : List Char := s.dropWhile jsonWsChar

def hexDigitVal (c : Char) : Option ℕ :=
  if 48 ≤ c.toNat ∧ c.toNat ≤ 57 then some (c.toNat - 48)
  else if 97 ≤ c.toNat ∧ c.toNat ≤ 102 then some (c.toNat - 87)
  else if 65 ≤ c.toNat ∧ c.toNat ≤ 70 then some (c.toNat - 55)
  else none

def escChar (e : Char) : Option Char :=
  if e = '"' then some '"'
  else if e = '\\' then some '\\'
  else if e = '/' then some '/'
  else if e = 'b' then some '\x08'
  else if e = 'f' then some '\x0c'
  else if e = 'n' then some '\n'
  else if e = 'r' then some '\r'
  else if e = 't' then some '\t'
  else none

def parseJString : List Char → Option (List Char × List Char)
  | [] => none
  | '"' :: rest => some ([], rest)
  | '\\' :: 'u' :: a :: b :: c :: d :: rest =>
    match hexDigitVal a, hexDigitVal b, hexDigitVal c, hexDigitVal d with
    | some va, some vb, some vc, some vd =>
      (parseJString rest).map fun p =>
        (Char.ofNat (va * 4096 + vb * 256 + vc * 16 + vd) :: p.1, p.2)
    | _, _, _, _ => none
  | '\\' :: e :: rest =>
    match escChar e with
    | some c => (parseJString rest).map fun p => (c :: p.1, p.2)
    | none => none
  | c :: rest =>
    if c.toNat < 32 then none
    else (parseJString rest).map fun p => (c :: p.1, p.2)

def digitsToNat (ds : List Char) : ℕ := ds.foldl (fun n c => 10 * n + (c.toNat - 48)) 0

def parseJNumber (s : List Char) : Option (Json × List Char) :=
  match s with
  | '-' :: rest =>
    let p := rest.span Char.isDigit
    if p.1.isEmpty then none
    else
      match p.2 with
      | '.' :: _ => none
      | 'e' :: _ => none
      | 'E' :: _ => none
      | _ => some (.num (-(digitsToNat p.1 : ℤ)), p.2)
  | _ =>
    let p := s.span Char.isDigit
    if p.1.isEmpty then none
    else
      match p.2 with
      | '.' :: _ => none
      | 'e' :: _ => none
      | 'E' :: _ => none
      | _ => some (.num (digitsToNat p.1 : ℤ), p.2)

/-- Python dict construction from parsed member pairs: first-occurrence
position, last value wins. -/
def pyDictUpdate (acc : List (String × Json)) (p : String × Json) : List (String × Json) :=
  if (jsonLookup acc p.1).isSome then
    acc.map fun q => if q.1 == p.1 then (q.1, p.2) else q
  else acc ++ [p]

def pyDictDedup (ps : List (String × Json)) : List (String × Json) := ps.foldl pyDictUpdate []

mutual

def parseJson (fuel : ℕ) (s : List Char) : Option (Json × List Char) :=
  match fuel with
  | 0 => none
  | fuel + 1 =>
    match skipWs s with
    | [] => none
    | c :: rest =>
      if c = lbraceChar then
        match skipWs rest with
        | [] => none
        | c₂ :: rest₂ =>
          if c₂ = rbraceChar then some (.obj [], rest₂)
          else (parseJMembers fuel (c₂ :: rest₂)).map fun p => (.obj (pyDictDedup p.1), p.2)
      else if c = '[' then
        match skipWs rest with
        | [] => none
        | c₂ :: rest₂ =>
          if c₂ = ']' then some (.arr [], rest₂)
          else (parseJElems fuel (c₂ :: rest₂)).map fun p => (.arr p.1, p.2)
      else if c = '"' then
        (parseJString rest).map fun p => (.str p.1.asString, p.2)
      else if c = 't' then
        match rest with
        | 'r' :: 'u' :: 'e' :: r => some (.bool true, r)
        | _ => none
      else if c = 'f' then
        match rest with
        | 'a' :: 'l' :: 's' :: 'e' :: r => some (.bool false, r)
        | _ => none
      else if c = 'n' then
        match rest with
        | 'u' :: 'l' :: 'l' :: r => some (.null, r)
        | _ => none
      else parseJNumber (c :: rest)
termination_by structural fuel

def parseJMembers (fuel : ℕ) (s : List Char) : Option (List (String × Json) × List Char) :=
  match fuel with
  | 0 => none
  | fuel + 1 =>
    match skipWs s with
    | '"' :: rest =>
      match parseJString rest with
      | none => none
      | some (kcs, r₁) =>
        match skipWs r₁ with
        | ':' :: r₂ =>
          match parseJson fuel r₂ with
          | none => none
          | some (v, r₃) =>
            match skipWs r₃ with
            | [] => none
            | c :: r₄ =>
              if c = ',' then
                (parseJMembers fuel r₄).map fun p => ((kcs.asString, v) :: p.1, p.2)
              else if c = rbraceChar then some ([(kcs.asString, v)], r₄)
              else none
        | _ => none
    | _ => none
termination_by structural fuel

def parseJElems (fuel : ℕ) (s : List Char) : Option (List Json × List Char) :=
  match fuel with
  | 0 => none
  | fuel + 1 =>
    match parseJson fuel s with
    | none => none
    | some (v, r) =>
      match skipWs r with
      | ',' :: r₂ => (parseJElems fuel r₂).map fun p => (v :: p.1, p.2)
      | ']' :: r₂ => some ([v], r₂)
      | _ => none
termination_by structural fuel

end

/-- Python `json.loads` on the extracted character list. -/
def json_loads (cs : List Char) : Except String Json :=
  match parseJson (cs.length + 1) cs with
  | none => .error "Expecting value"
  | some (v, r) => if (skipWs r).isEmpty then .ok v else .error "Extra data"

def isStrJson : Json → Bool
  | .str _ => true
  | _ => false

def isObjJson : Json → Bool
  | .obj _ => true
  | _ => false

/-- Validation `jsonschema.validate(instance, RESPONSE_JSON_SCHEMA)`: requires a JSON
object whose only properties are answer/citations/meta, with answer a
required string, citations an optional array of strings, meta an optional
object.  Returns the violation reason, `none` when valid.  The
`"format": "uri"` annotation on citation items is **not** enforced —
`jsonschema.validate` ignores formats without an explicit format checker. -/
def validate_response_schema (j : Json) : Option String :=
  match j with
  | .obj kvs =>
    if !(kvs.all fun p => p.1 == "answer" || p.1 == "citations" || p.1 == "meta") then
      some "Additional properties are not allowed"
    else
      match jsonLookup kvs "answer" with
      | some (.str _) =>
        match jsonLookup kvs "citations" with
        | some (.arr xs) =>
          if xs.all isStrJson then
            match jsonLookup kvs "meta" with
            | some v => if isObjJson v then none else some "meta is not of type object"
            | none => none
          else some "citations items are not of type string"
        | some _ => some "citations is not of type array"
        | none =>
          match jsonLookup kvs "meta" with
          | some v => if isObjJson v then none else some "meta is not of type object"
          | none => none
      | some _ => some "answer is not of type string"
      | none => some "answer is a required property"
  | _ => some "not of type object"

def matchAt : List Char → List Char → Bool
  | [], _ => true
  | _ :: _, [] => false
  | p :: ps, c :: cs => p = c && matchAt ps cs

/-- Python `s.find(pat, start)`: lowest index `≥ start` where `pat` occurs,
`none` for -1. -/
def findSub (pat s : List Char) (start : ℕ) : Option ℕ :=
  (List.range (s.length + 1)).find? fun i => decide (start ≤ i) && matchAt pat (s.drop i)

def pyStrip (l : List Char) : List Char :=
  ((l.dropWhile isPySpace).reverse.dropWhile isPySpace).reverse

/-- Python `l[start:stop]` where `stop` may be negative (counted from the
end, as happens when `find` returned -1). -/
def pySlice (l : List Char) (start : ℕ) (stop : ℤ) : List Char :=
  let stopIdx : ℤ := if stop < 0 then (l.length : ℤ) + stop else stop
  (l.drop start).take (stopIdx - (start : ℤ)).toNat

def fenceJson : List Char := "```json".toList

def fence : List Char := "```".toList

/-- The fence handling of `_parse_and_validate_json`: `content.find` based,
so the marker is honoured anywhere in the body, and a missing closing
marker drops the final character (slice end -1). -/
def extract_json_str (content : List Char) : List Char :=
  match findSub fenceJson content 0 with
  | some i =>
    let start := i + 7
    let stop : ℤ := match findSub fence content start with
      | some j => (j : ℤ)
      | none => -1
    pyStrip (pySlice content start stop)
  | none =>
    match findSub fence content 0 with
    | some i =>
      let start := i + 3
      let stop : ℤ := match findSub fence content start with
        | some j => (j : ℤ)
        | none => -1
      pyStrip (pySlice content start stop)
    | none => pyStrip content

/-- Modelled from the spec (§4.3): "strip a leading ```json (or ```) fence
and its matching trailing fence before parsing" — for comparison with the
find-anywhere behaviour of the source. -/
def dropTrailingFence (u : List Char) : List Char :=
  if 3 ≤ u.length && matchAt fence (u.drop (u.length - 3)) then u.take (u.length - 3) else u

def extract_json_str_spec (content : List Char) : List Char :=
  let t := pyStrip content
  if matchAt fenceJson t then pyStrip (dropTrailingFence (t.drop 7))
  else if matchAt fence t then pyStrip (dropTrailingFence (t.drop 3))
  else t

/-- The synthesized fallback object
`(answer: raw body, citations: [], meta.validation_error: reason)`. -/
def fallbackObj (content reason : String) : Json :=
  .obj [("answer", .str content), ("citations", .arr []),
        ("meta", .obj [("validation_error", .str reason)])]

/-- Extraction `parsed.get("citations", [])` with the `isinstance(citations, list)`
guard; on the success path the schema has already forced every item to be a
string. -/
def citationsOf (j : Json) : List String :=
  match j with
  | .obj kvs =>
    match jsonLookup kvs "citations" with
    | some (.arr xs) => xs.filterMap fun x =>
        match x with
        | .str s => some s
        | _ => none
    | some _ => []
    | none => []
  | _ => []

def parse_and_validate_json (content : String) : Json × List String :=
  let js := extract_json_str content.data
  match json_loads js with
  | .error e => (fallbackObj content e, [])
  | .ok parsed =>
    match validate_response_schema parsed with
    | some err => (fallbackObj content err, [])
    | none => (parsed, citationsOf parsed)

/-- The same pipeline under the spec's leading-fence reading. -/
def parse_and_validate_json_spec (content : String) : Json × List String :=
  let js := extract_json_str_spec content.data
  match json_loads js with
  | .error e => (fallbackObj content e, [])
  | .ok parsed =>
    match validate_response_schema parsed with
    | some err => (fallbackObj content err, [])
    | none => (parsed, citationsOf parsed)

def answerOf (j : Json) : Option String :=
  match j with
  | .obj kvs =>
    match jsonLookup kvs "answer" with
    | some (.str s) => some s
    | _ => none
  | _ => none

/-! ## Citation URL validation — gemini_client.py `_validate_urls`

Embedding of the compiled pattern

    ^https?:// (domain | localhost | IPv4) (:port)? (/?|[/?]\S+) $

with `re.IGNORECASE` (handled by lowercasing the candidate first: every
sub-pattern is case-insensitive).  The domain alternative is
`(?:[A-Z0-9](?:[A-Z0-9-]{0,61}[A-Z0-9])?\.)+[A-Z]{2,6}\.?`. -/

def isAlnumAscii (c : Char) : Bool :=
  (48 ≤ c.toNat && c.toNat ≤ 57) || (97 ≤ c.toNat && c.toNat ≤ 122)

def isAlphaAscii (c : Char) : Bool := 97 ≤ c.toNat && c.toNat ≤ 122

/-- One domain label `[A-Z0-9](?:[A-Z0-9-]{0,61}[A-Z0-9])?` (lower-cased). -/
def labelOk (l : List Char) : Bool :=
  match l with
  | [] => false
  | c :: rest =>
    isAlnumAscii c &&
    (match rest.reverse with
     | [] => true
     | lastc :: midrev =>
       isAlnumAscii lastc && midrev.length ≤ 61 &&
         midrev.all fun m => isAlnumAscii m || m = '-')

def splitOnDot : List Char → List (List Char)
  | [] => [[]]
  | x :: xs =>
    if x = '.' then [] :: splitOnDot xs
    else
      match splitOnDot xs with
      | [] => [[x]]
      | h :: t => (x :: h) :: t

def tldOk (t : List Char) : Bool := 2 ≤ t.length && t.length ≤ 6 && t.all isAlphaAscii

def domainOk (h : List Char) : Bool :=
  let ps := splitOnDot h
  let ps := if ps.getLast? = some [] then ps.dropLast else ps
  2 ≤ ps.length && ps.dropLast.all labelOk && (ps.getLast?.map tldOk).getD false

def ipOk (h : List Char) : Bool :=
  match splitOnDot h with
  | [a, b, c, d] => [a, b, c, d].all fun g => 1 ≤ g.length && g.length ≤ 3 && g.all Char.isDigit
  | _ => false

def hostOk (h : List Char) : Bool :=
  domainOk h || h = "localhost".toList || ipOk h

def isHostChar (c : Char) : Bool := isAlnumAscii c || c = '-' || c = '.'

/-- Path alternative `(?:/?|[/?]\S+)$` of the pattern. -/
def pathOk (r : List Char) : Bool :=
  match r with
  | [] => true
  | '/' :: rest => rest.all fun c => !isPySpace c
  | '?' :: rest => !rest.isEmpty && rest.all fun c => !isPySpace c
  | _ => false

def url_pattern_match (s : String) : Bool :=
  let cs := s.data.map Char.toLower
  if matchAt ("http".toList) cs then
    let r0 := cs.drop 4
    let r1 := if matchAt ("s://".toList) r0 then r0.drop 4
              else if matchAt ("://".toList) r0 then r0.drop 3
              else []
    if (matchAt ("s://".toList) r0 || matchAt ("://".toList) r0) then
      let p := r1.span isHostChar
      if hostOk p.1 then
        match p.2 with
        | ':' :: r =>
          let d := r.span Char.isDigit
          !d.1.isEmpty && pathOk d.2
        | r => pathOk r
      else false
    else false
  else false

def validate_urls (urls : List String) : List String := urls.filter url_pattern_match

/-- gemini_client.invoke lines 218–229:
`all_citations = list(set(json_citations + gemini_citations))` followed by
`_validate_urls`.  The iteration order of a Python `set` of strings is
hash-seed dependent; it is modelled by an oracle `setOrder`, constrained in
theorems to produce a duplicate-free list with exactly the members of its
input. -/
def gemini_merge_citations (setOrder : List String → List String)
    (jsonCits geminiCits : List String) : List String :=
  validate_urls (setOrder (jsonCits ++ geminiCits))

/-- openai_client.invoke / `_parse_and_validate_json` lines 248–260: the
Result's citations are exactly the JSON-carried ones — no provider channel,
no de-duplication, no URL filtering. -/
def openai_result_citations (content : String) : List String :=
  (parse_and_validate_json content).2

/-! # Claim theorems -/

/-- Evaluation helper for the backoff at base 2, attempt 1. -/
theorem backoff_eval (j v : ℚ) (k : ℤ) (hv : (2 : ℚ) ^ 1 + j = v) (hv60 : v ≤ 60)
    (h0 : 0 ≤ v) (hk : ⌊v⌋ = k) : calculate_backoff_with_jitter 2 1 j = k := by
  simp only [calculate_backoff_with_jitter, pyInt]
  rw [hv, min_eq_left hv60, if_pos h0, hk]

/-- C9 counterexample: the delivery countdown is *not* the spec's
`clamp(base^attempt + jitter, 1, 60)`: at attempt 1 with jitter -2/5 the
code returns `int(min(2 - 0.4, 60)) = 1` while the clamp formula gives 8/5
(there is no lower clamp in the code, and the value is truncated to int). -/
theorem backoff_not_clamp_counterexample :
    ((calculate_backoff_with_jitter 2 1 (-2/5) : ℤ) : ℚ) ≠ backoffClaimFormula 2 1 (-2/5) := by
  rw [backoff_eval (-2/5) (8/5) 1 (by norm_num) (by norm_num) (by norm_num) (by norm_num)]
  have hf : backoffClaimFormula 2 1 (-2/5) = 8/5 := by
    unfold backoffClaimFormula
    rw [show ((2 : ℚ) ^ 1 + -2/5) = 8/5 by norm_num, min_eq_left (by norm_num),
      max_eq_right (by norm_num)]
  rw [hf]
  norm_num

/-- C9 (amended): the countdown equals `int(min(base^attempt + jitter, 60))`
— truncated, with no explicit lower clamp; still, with the default base 2,
for every attempt ≥ 1 and jitter within ±0.2·2^attempt it lies in [1 s, 60 s];
and it is not a constant function of the attempt index alone (jitters -2/5
and 2/5 at attempt 1 give countdowns 1 and 2). -/
theorem backoff_bounds (a : ℕ) (j : ℚ) (ha : 1 ≤ a) (hj : |j| ≤ 2 ^ a / 5) :
    calculate_backoff_with_jitter 2 a j = pyInt (min ((2 : ℚ) ^ a + j) 60) ∧
    1 ≤ calculate_backoff_with_jitter 2 a j ∧
    calculate_backoff_with_jitter 2 a j ≤ 60 ∧
    calculate_backoff_with_jitter 2 1 (-2/5) ≠ calculate_backoff_with_jitter 2 1 (2/5) := by
  obtain ⟨hj₁, hj₂⟩ := abs_le.mp hj
  have h2a : (2 : ℚ) ≤ 2 ^ a := by
    calc (2 : ℚ) = 2 ^ 1 := (pow_one 2).symm
    _ ≤ 2 ^ a := pow_le_pow_right₀ (by norm_num) ha
  have hlow : (8/5 : ℚ) ≤ 2 ^ a + j := by linarith
  have hmin : (8/5 : ℚ) ≤ min ((2 : ℚ) ^ a + j) 60 := le_min hlow (by norm_num)
  have hpos : (0 : ℚ) ≤ min ((2 : ℚ) ^ a + j) 60 := by linarith
  refine ⟨rfl, ?_, ?_, ?_⟩
  · show (1 : ℤ) ≤ pyInt (min ((2 : ℚ) ^ a + j) 60)
    unfold pyInt
    rw [if_pos hpos, Int.le_floor]
    push_cast
    linarith
  · show pyInt (min ((2 : ℚ) ^ a + j) 60) ≤ 60
    unfold pyInt
    rw [if_pos hpos]
    have hfl : Int.floor (min ((2 : ℚ) ^ a + j) 60) ≤ Int.floor ((60 : ℚ)) :=
      Int.floor_le_floor (min_le_right _ _)
    simpa using hfl
  · rw [backoff_eval (-2/5) (8/5) 1 (by norm_num) (by norm_num) (by norm_num) (by norm_num),
      backoff_eval (2/5) (12/5) 2 (by norm_num) (by norm_num) (by norm_num) (by norm_num)]
    norm_num

/-- C9 witness: the amended bounds at attempt 1, jitter 0. -/
theorem backoff_bounds_witness :
    calculate_backoff_with_jitter 2 1 0 = pyInt (min ((2 : ℚ) ^ 1 + 0) 60) ∧
    1 ≤ calculate_backoff_with_jitter 2 1 0 ∧
    calculate_backoff_with_jitter 2 1 0 ≤ 60 ∧
    calculate_backoff_with_jitter 2 1 (-2/5) ≠ calculate_backoff_with_jitter 2 1 (2/5) :=
  backoff_bounds 1 0 (by norm_num) (by norm_num)

/-- C8 counterexample: a RunItem already `succeeded` (attempt_count 2) is
not skipped by the worker: the task transitions it to `running` and bumps
attempt_count to 3, although it is not a retry of the unit. -/
theorem worker_no_skip_counterexample :
    (execute_run_item_start (some ⟨.succeeded, 2, none⟩)).1 ≠ some ⟨.succeeded, 2, none⟩ ∧
    (execute_run_item_start (some ⟨.succeeded, 2, none⟩)).1 = some ⟨.running, 3, none⟩ ∧
    RunItemStatus.succeeded ≠ RunItemStatus.pending := by
  refine ⟨by decide, rfl, by decide⟩

/-- C8 (amended): the worker never skips an *existing* RunItem, whatever its
status: it is always transitioned to `running` with `attempt_count + 1`
(in particular it is never left unchanged); only a missing RunItem id is
acknowledged without any state change. -/
theorem worker_always_transitions (r : RunItemRec) :
    (execute_run_item_start (some r)).1 =
      some { r with status := .running, attemptCount := r.attemptCount + 1 } ∧
    (execute_run_item_start (some r)).1 ≠ some r ∧
    (execute_run_item_start (some r)).2 = true ∧
    execute_run_item_start none = (none, false) := by
  refine ⟨rfl, ?_, rfl, rfl⟩
  intro h
  have hc := congrArg (fun o => o.map RunItemRec.attemptCount) h
  simp only [execute_run_item_start, Option.map_some] at hc
  have : r.attemptCount + 1 = r.attemptCount := by
    injection hc
  omega

/-- C5: every call of an adapter's `invoke` evaluates
`settings.default_temperature` on the `**settings` keyword dict (which
shadows the config module), so the sampling-parameter resolution raises
`AttributeError` for every settings object — no request body carrying the
determinism overrides is ever built, although the override lines that
follow (and the repo's own tests) implement/expect temperature=0, top_p=1. -/
theorem invoke_settings_attribute_error (s : List (String × Json)) :
    invoke_resolve_sampling s =
      .error "AttributeError: dict object has no attribute default_temperature" := rfl

theorem cfgStr_eq {kvs : List (String × Json)} {k s : String}
    (h : jsonLookup kvs k = some (.str s)) : cfgStr kvs k = .ok s := by
  unfold cfgStr
  rw [h]

/-- C10: the worker resolves every RunItem's provider configuration as the
first entry of the run's provider list merged with the question's
`provider_overrides` — visibly independent of any later entry `rest` and of
which provider spec the item's fingerprint was materialized from; moreover,
when the overrides do not carry a `name`, the dispatched provider name is
the first listed provider's name. -/
theorem worker_resolves_first_provider
    (cfg ov ps qm : List (String × Json)) (rest : List Json) (n m : String)
    (hp : jsonLookup ps "providers" = some (.arr (.obj cfg :: rest)))
    (hov : jsonLookup qm "provider_overrides" = some (.obj ov))
    (hn : jsonLookup (mergeKVs cfg ov) "name" = some (.str n))
    (hm : jsonLookup (mergeKVs cfg ov) "model" = some (.str m)) :
    resolve_provider_config ps qm = .ok (mergeKVs cfg ov, n, m) ∧
    (jsonLookup ov "name" = none → jsonLookup cfg "name" = some (.str n)) := by
  constructor
  · unfold resolve_provider_config
    rw [hp, hov]
    show (do
      let cfg₂ ← asObj (.obj cfg)
      let ov₂ ← asObj (.obj ov)
      let merged := mergeKVs cfg₂ ov₂
      let name ← cfgStr merged "name"
      let model ← cfgStr merged "model"
      Except.ok (merged, name, model) : Except String _) = _
    show (do
      let name ← cfgStr (mergeKVs cfg ov) "name"
      let model ← cfgStr (mergeKVs cfg ov) "model"
      Except.ok (mergeKVs cfg ov, name, model) : Except String _) = _
    rw [cfgStr_eq hn]
    show (do
      let model ← cfgStr (mergeKVs cfg ov) "model"
      Except.ok (mergeKVs cfg ov, n, model) : Except String _) = _
    rw [cfgStr_eq hm]
    rfl
  · intro hno
    rw [← jsonLookup_mergeKVs_of_none hno]
    exact hn

def psW : List (String × Json) :=
  [("providers", .arr
      [.obj [("name", .str "openai"), ("model", .str "gpt-4o-mini")],
       .obj [("name", .str "gemini"), ("model", .str "gemini-pro")]]),
   ("prompt_version", .str "v1")]

def qmW : List (String × Json) := [("provider_overrides", .obj [("temperature", .num 1)])]

def cfgW : List (String × Json) := [("name", .str "openai"), ("model", .str "gpt-4o-mini")]

def ovW : List (String × Json) := [("temperature", .num 1)]

/-- C10 witness: a run naming openai then gemini dispatches to openai. -/
theorem worker_resolves_first_provider_witness :
    resolve_provider_config psW qmW = .ok (mergeKVs cfgW ovW, "openai", "gpt-4o-mini") ∧
    (jsonLookup ovW "name" = none → jsonLookup cfgW "name" = some (.str "openai")) :=
  worker_resolves_first_provider cfgW ovW psW qmW
    [.obj [("name", .str "gemini"), ("model", .str "gemini-pro")]] "openai" "gpt-4o-mini"
    rfl rfl rfl rfl

theorem try_acquire_cases (burst iv n now : ℚ) (st : Option BucketState) :
    (try_acquire burst iv n now st).1 = true ∨ try_acquire burst iv n now st = (false, st) := by
  unfold try_acquire
  dsimp only
  split
  · exact Or.inl rfl
  · exact Or.inr rfl

/-- Evaluation form of the Lua step on a present bucket. -/
theorem try_acquire_some_eval (burst iv n now tk lu : ℚ) :
    try_acquire burst iv n now (some ⟨tk, lu⟩) =
      (if n ≤ min burst (tk + ((⌊(now - lu) / iv⌋ : ℤ) : ℚ)) then
        (true, some ⟨min burst (tk + ((⌊(now - lu) / iv⌋ : ℤ) : ℚ)) - n, now⟩)
      else (false, some ⟨tk, lu⟩)) := rfl

/-- Evaluation form of the spec's step on a present bucket. -/
theorem try_acquire_spec_some_eval (burst iv n now tk lu : ℚ) :
    try_acquire_spec burst iv n now (some ⟨tk, lu⟩) =
      (if n ≤ min burst (tk + ((⌊(now - lu) / iv⌋ : ℤ) : ℚ)) then
        (true, some ⟨min burst (tk + ((⌊(now - lu) / iv⌋ : ℤ) : ℚ)) - n,
          now - qmod (now - lu) iv⟩)
      else (false, some ⟨min burst (tk + ((⌊(now - lu) / iv⌋ : ℤ) : ℚ)),
          now - qmod (now - lu) iv⟩)) := rfl

theorem try_acquire_fail_state {burst iv n now : ℚ} {st : Option BucketState}
    (h : (try_acquire burst iv n now st).1 = false) :
    (try_acquire burst iv n now st).2 = st := by
  rcases try_acquire_cases burst iv n now st with h₁ | h₁
  · rw [h₁] at h
    exact absurd h (by simp)
  · rw [h₁]

theorem acquire_run_false_unchanged (burst iv n timeout start : ℚ) :
    ∀ (ts : List (ℚ × ℚ)) (st : Option BucketState),
      (acquire_run burst iv n timeout start st ts).1 = false →
      (acquire_run burst iv n timeout start st ts).2 = st := by
  intro ts
  induction ts with
  | nil => intro st _; rfl
  | cons p rest ih =>
    intro st h
    obtain ⟨t, tc⟩ := p
    simp only [acquire_run] at h ⊢
    rcases try_acquire_cases burst iv n t st with h₁ | h₁
    · exfalso
      rw [h₁] at h
      simp at h
    · rw [h₁] at h ⊢
      by_cases hd : timeout ≤ tc - start
      · simp [hd]
      · simp only [hd, if_false, Bool.false_eq_true] at h ⊢
        exact ih st h

theorem acquire_run_timeout (burst iv n timeout start : ℚ) :
    ∀ (ts : List (ℚ × ℚ)) (st : Option BucketState),
      (∀ p ∈ ts, (try_acquire burst iv n p.1 st).1 = false) →
      (∃ p ∈ ts, timeout ≤ p.2 - start) →
      acquire_run burst iv n timeout start st ts = (false, st) := by
  intro ts
  induction ts with
  | nil =>
    intro st _ hex
    obtain ⟨p, hp, _⟩ := hex
    cases hp
  | cons p rest ih =>
    intro st hall hex
    obtain ⟨t, tc⟩ := p
    have hfail : (try_acquire burst iv n t st).1 = false :=
      hall (t, tc) (List.mem_cons_self _ _)
    have hst : try_acquire burst iv n t st = (false, st) := by
      rcases try_acquire_cases burst iv n t st with h₁ | h₁
      · rw [h₁] at hfail
        exact absurd hfail (by simp)
      · exact h₁
    simp only [acquire_run]
    rw [hst]
    by_cases hd : timeout ≤ tc - start
    · simp [hd]
    · simp only [hd, if_false, Bool.false_eq_true]
      refine ih st (fun q hq => hall q (List.mem_cons_of_mem _ hq)) ?_
      obtain ⟨q, hq, hqd⟩ := hex
      rcases List.mem_cons.mp hq with rfl | hq₂
      · exact absurd hqd hd
      · exact ⟨q, hq₂, hqd⟩

/-- C3 counterexample: bucket (tokens 0, last_update 0), qps 1
(interval 1), burst 10, request n = 2 at now = 3/2.  The refill makes 1
token, not enough; the source persists nothing (bucket unchanged), while
the spec's step says the refill-only state (tokens 1, last_update 1) is
persisted — and on the success path the source stores `last_update = now`,
not `now − ((now − last_update) mod interval)`: with n = 1 the source
stores (0, 3/2), the spec (0, 1). -/
theorem rate_limit_step_counterexample :
    try_acquire 10 1 2 (3/2) (some ⟨0, 0⟩) = (false, some ⟨0, 0⟩) ∧
    try_acquire_spec 10 1 2 (3/2) (some ⟨0, 0⟩) = (false, some ⟨1, 1⟩) ∧
    try_acquire 10 1 1 (3/2) (some ⟨0, 0⟩) = (true, some ⟨0, 3/2⟩) ∧
    try_acquire_spec 10 1 1 (3/2) (some ⟨0, 0⟩) = (true, some ⟨0, 1⟩) ∧
    (some (⟨0, 0⟩ : BucketState) ≠ some ⟨1, 1⟩) ∧ ((3/2 : ℚ) ≠ 1) := by
  have hfl : (⌊((3/2 : ℚ) - 0) / 1⌋ : ℤ) = 1 := by norm_num
  have hmin : min (10 : ℚ) (0 + ((1 : ℤ) : ℚ)) = 1 := by norm_num
  have hqm : qmod ((3/2 : ℚ) - 0) 1 = 1/2 := by
    unfold qmod
    rw [show (((3/2 : ℚ) - 0) / 1) = 3/2 by norm_num]
    rw [show (⌊(3/2 : ℚ)⌋ : ℤ) = 1 by norm_num]
    norm_num
  refine ⟨?_, ?_, ?_, ?_, by decide, by norm_num⟩
  · rw [try_acquire_some_eval, hfl, hmin, if_neg (by norm_num)]
  · rw [try_acquire_spec_some_eval, hfl, hmin, hqm, if_neg (by norm_num)]
    norm_num
  · rw [try_acquire_some_eval, hfl, hmin, if_pos (by norm_num)]
    norm_num
  · rw [try_acquire_spec_some_eval, hfl, hmin, hqm, if_pos (by norm_num)]
    norm_num

/-- C3 (amended): the refill step is as claimed (`refill = ⌊elapsed /
interval⌋`, `tokens := min(burst, tokens + refill)`), but on success the
persisted state is `(tokens − n, now)` — `last_update` is set to `now`,
dropping the fractional remainder — and on shortage **nothing** is
persisted: the stored bucket is unchanged, both for the single step and for
the whole polling loop; the loop returns timeout (false) when every try
fails and some iteration's clock reading passes the deadline. -/
theorem rate_limit_amended (burst iv n timeout start : ℚ) :
    (∀ tk lu now : ℚ, try_acquire burst iv n now (some ⟨tk, lu⟩) =
      (if n ≤ min burst (tk + ((⌊(now - lu) / iv⌋ : ℤ) : ℚ)) then
        (true, some ⟨min burst (tk + ((⌊(now - lu) / iv⌋ : ℤ) : ℚ)) - n, now⟩)
      else (false, some ⟨tk, lu⟩))) ∧
    (∀ (ts : List (ℚ × ℚ)) (st : Option BucketState),
      (acquire_run burst iv n timeout start st ts).1 = false →
      (acquire_run burst iv n timeout start st ts).2 = st) ∧
    (∀ (ts : List (ℚ × ℚ)) (st : Option BucketState),
      (∀ p ∈ ts, (try_acquire burst iv n p.1 st).1 = false) →
      (∃ p ∈ ts, timeout ≤ p.2 - start) →
      acquire_run burst iv n timeout start st ts = (false, st)) :=
  ⟨fun _ _ _ => rfl, acquire_run_false_unchanged burst iv n timeout start,
    acquire_run_timeout burst iv n timeout start⟩

/-- C3 witness: burst 1, interval 1, n 1, timeout 1, start 0, one loop
iteration trying at t = 0 and checking the deadline at t = 5, on bucket
(0, 0): the try fails, the deadline has passed, the loop reports timeout
and the bucket is unchanged. -/
theorem rate_limit_amended_witness :
    acquire_run 1 1 1 1 0 (some ⟨0, 0⟩) [(0, 5)] = (false, some ⟨0, 0⟩) := by
  refine (rate_limit_amended 1 1 1 1 0).2.2 [(0, 5)] (some ⟨0, 0⟩) ?_ ⟨(0, 5), by simp, by norm_num⟩
  intro p hp
  rcases List.mem_cons.mp hp with rfl | hp₂
  · rw [(rate_limit_amended 1 1 1 1 0).1 0 0 0]
    rw [show (⌊((0 : ℚ) - 0) / 1⌋ : ℤ) = 0 by norm_num]
    rw [if_neg (by norm_num)]
  · cases hp₂

/-- C4: run materialization is idempotent.  If the first call computed
fingerprints `ks` and left the fingerprint table
`(materializeFold existing ks).1`, then a second call over the same run
leaves the table exactly as it is (existing rows untouched, no new
RunItems) and reports a created-count of 0. -/
theorem materialize_run_items_idempotent (existing : List String) (pv : String)
    (cfgs : List (List (String × Json))) (qs : List QuestionRec) (ks : List String)
    (h : run_item_keys pv cfgs qs = .ok ks) :
    materialize_run_items ((materializeFold existing ks).1) pv cfgs qs =
      .ok ((materializeFold existing ks).1, 0) := by
  unfold materialize_run_items
  rw [h]
  show Except.ok (materializeFold ((materializeFold existing ks).1) ks) = _
  have hfix : materializeFold ((materializeFold existing ks).1) ks =
      ((materializeFold existing ks).1, 0) := by
    unfold materializeFold
    exact foldl_materializeStep_noop fun k hk => mem_foldl_materializeStep hk
  rw [hfix]

def qsW : List QuestionRec := [⟨"q1", "p1", "How long does the battery last?", []⟩]

def cfgsW : List (List (String × Json)) :=
  [[("name", .str "openai"), ("model", .str "m"), ("allow_sampling", .bool false)]]

def ksW : List String :=
  match run_item_keys "v1" cfgsW qsW with
  | .ok l => l
  | .error _ => []

/-- C4 witness: one question, one provider spec; the second materialization
returns the unchanged table and created-count 0. -/
theorem materialize_run_items_idempotent_witness :
    materialize_run_items ((materializeFold [] ksW).1) "v1" cfgsW qsW =
      .ok ((materializeFold [] ksW).1, 0) :=
  materialize_run_items_idempotent [] "v1" cfgsW qsW ksW (by rfl)

theorem asString_length (l : List Char) : (l.asString).length = l.length := rfl

theorem asString_toList (l : List Char) : (l.asString).toList = l := rfl

theorem wordToHex_length (w : ℕ) : (wordToHex w).length = 8 := by
  simp [wordToHex]

theorem toHexChar_lt16_mem : ∀ m : ℕ, m < 16 → toHexChar m ∈ hexChars := by decide

theorem wordToHex_mem {c : Char} {w : ℕ} (h : c ∈ wordToHex w) : c ∈ hexChars := by
  unfold wordToHex at h
  simp only [List.mem_map, List.mem_range] at h
  obtain ⟨i, _, rfl⟩ := h
  exact toHexChar_lt16_mem _ (Nat.mod_lt _ (by norm_num))

theorem sha256HexOfBytes_length (msg : List ℕ) : (sha256HexOfBytes msg).length = 64 := by
  unfold sha256HexOfBytes
  rw [asString_length]
  simp [List.length_append, wordToHex_length]

theorem sha256HexOfBytes_mem {c : Char} (msg : List ℕ)
    (h : c ∈ (sha256HexOfBytes msg).toList) : c ∈ hexChars := by
  unfold sha256HexOfBytes at h
  rw [asString_toList] at h
  simp only [List.mem_append] at h
  rcases h with ((((((h | h) | h) | h) | h) | h) | h) | h <;> exact wordToHex_mem h

/-- C2 (amended): the fingerprint is a lowercase 64-hex-digit string for
every input, and it is invariant under key permutations (at any nesting
level) of `provider_settings` and under question texts with equal
normalized forms.  The converse — equal fingerprints only for equal
normalized inputs — does **not** hold (see the delimiter collision). -/
theorem fingerprint_hex_and_invariance :
    (∀ provider model pv qid pid qt s,
      (compute_idempotency_hash provider model pv qid pid qt s).length = 64 ∧
      ∀ c ∈ (compute_idempotency_hash provider model pv qid pid qt s).toList,
        c ∈ hexChars) ∧
    (∀ provider model pv qid pid t₁ t₂ s₁ s₂,
      normalizeText t₁ = normalizeText t₂ → Json.KeyPerm s₁ s₂ →
      compute_idempotency_hash provider model pv qid pid t₁ s₁ =
        compute_idempotency_hash provider model pv qid pid t₂ s₂) := by
  constructor
  · intro provider model pv qid pid qt s
    exact ⟨sha256HexOfBytes_length _, fun c hc => sha256HexOfBytes_mem _ hc⟩
  · intro provider model pv qid pid t₁ t₂ s₁ s₂ hT hS
    unfold compute_idempotency_hash
    rw [hT, Json.dumpsSorted_eq_of_keyPerm hS]

def settingsW₁ : Json :=
  .obj [("temperature", .num 1), ("allow_sampling", .bool true),
        ("nested", .obj [("b", .num 2), ("a", .num 3)])]

def settingsW₂ : Json :=
  .obj [("allow_sampling", .bool true), ("temperature", .num 1),
        ("nested", .obj [("a", .num 3), ("b", .num 2)])]

/-- C2 witness: permuting keys at the outer level and inside a nested
object, and renormalizing the question text, leaves the fingerprint
byte-identical. -/
theorem fingerprint_invariance_witness :
    compute_idempotency_hash "openai" "m" "v1" "q1" "p1" "Hello   WORLD" settingsW₁ =
      compute_idempotency_hash "openai" "m" "v1" "q1" "p1" " hello world " settingsW₂ :=
  fingerprint_hex_and_invariance.2 "openai" "m" "v1" "q1" "p1" _ _ _ _ (by rfl)
    (Json.KeyPerm.ktrans
      (Json.KeyPerm.objCons (Json.KeyPerm.num 1)
        (Json.KeyPerm.objCons (Json.KeyPerm.bool true)
          (Json.KeyPerm.objCons
            (Json.KeyPerm.objPerm
              (List.Perm.swap ("a", Json.num 3) ("b", Json.num 2) [])
              (by decide))
            Json.KeyPerm.objNil)))
      (Json.KeyPerm.objPerm
        (List.Perm.swap ("allow_sampling", Json.bool true) ("temperature", Json.num 1)
          [("nested", Json.obj [("a", Json.num 3), ("b", Json.num 2)])])
        (by decide)))

/-- C2 counterexample: the "|" delimiter occurs inside fields.  The
invocations (provider "a|b", model "c") and (provider "a", model "b|c") —
normalized inputs that differ — produce byte-identical fingerprints, so
"results agree only if the normalized inputs agree" is false. -/
theorem fingerprint_delimiter_collision :
    compute_idempotency_hash "a|b" "c" "v1" "q1" "p1" "t" (.obj []) =
      compute_idempotency_hash "a" "b|c" "v1" "q1" "p1" "t" (.obj []) ∧
    ("a|b" : String) ≠ "a" := ⟨rfl, by decide⟩

def c6Body : String := "x ```json \x7b\"answer\": \"a\"\x7d``` y"

/-- C6 counterexample: the fence is honoured *anywhere* in the body, not
only leading.  For the body `x ```json («answer: a») ``` y` the adapter
parses the embedded object and returns answer "a", whereas the claim
(strip only a *leading* fence, otherwise parse the raw body, which fails)
demands the synthesized fallback carrying the whole raw body. -/
theorem fence_anywhere_counterexample :
    answerOf (parse_and_validate_json c6Body).1 = some "a" ∧
    answerOf (parse_and_validate_json_spec c6Body).1 = some c6Body ∧
    ¬ ((some "a" : Option String) = some c6Body) := ⟨rfl, rfl, by decide⟩

/-- C6 (amended): for every reply body, the adapter either returns the
parsed, schema-valid object together with its JSON-carried citations, or
— on any parse or schema failure of the fence-extracted slice (the slice
between the first "```json"/"```" marker anywhere in the body and the next
"```", the whole stripped body when no marker occurs) — returns exactly the
synthesized object (answer: raw body, citations: [],
meta.validation_error: reason) without raising. -/
theorem parse_fallback_total (content : String) :
    (∃ parsed, json_loads (extract_json_str content.data) = .ok parsed ∧
      validate_response_schema parsed = none ∧
      parse_and_validate_json content = (parsed, citationsOf parsed)) ∨
    (∃ reason, parse_and_validate_json content = (fallbackObj content reason, [])) := by
  unfold parse_and_validate_json
  cases hl : json_loads (extract_json_str content.data) with
  | error e =>
    refine Or.inr ⟨e, ?_⟩
    simp [hl]
  | ok parsed =>
    cases hv : validate_response_schema parsed with
    | some err =>
      refine Or.inr ⟨err, ?_⟩
      simp [hl, hv]
    | none =>
      refine Or.inl ⟨parsed, rfl, hv, ?_⟩
      simp [hl, hv]

def c7Body : String := "\x7b\"answer\":\"a\",\"citations\":[\"notaurl\",\"notaurl\"]\x7d"

/-- C7 counterexample: the OpenAI adapter emits the JSON-carried citations
unchanged — `"notaurl"` passes schema validation (`format: uri` is not
enforced) and is emitted twice: the Result citations are neither
URL-filtered nor de-duplicated. -/
theorem openai_citations_counterexample :
    openai_result_citations c7Body = ["notaurl", "notaurl"] ∧
    url_pattern_match "notaurl" = false ∧
    ¬ (["notaurl", "notaurl"] : List String).Nodup := ⟨rfl, rfl, by decide⟩

/-- C7 (amended): the Gemini adapter merges the JSON and grounding
citations through `list(set(...))` — under any iteration order the emitted
list is duplicate-free and holds exactly the members of the union that
match the http(s) pattern, but no first-occurrence / JSON-precedence order
is guaranteed; the OpenAI adapter emits the JSON-carried citations
unchanged (no provider channel, no de-duplication, no URL filtering). -/
theorem citations_merge_amended (setOrder : List String → List String)
    (jsonCits geminiCits : List String)
    (hnd : (setOrder (jsonCits ++ geminiCits)).Nodup)
    (hmem : ∀ a, a ∈ setOrder (jsonCits ++ geminiCits) ↔ a ∈ jsonCits ++ geminiCits) :
    (gemini_merge_citations setOrder jsonCits geminiCits).Nodup ∧
    (∀ u, u ∈ gemini_merge_citations setOrder jsonCits geminiCits ↔
      ((u ∈ jsonCits ∨ u ∈ geminiCits) ∧ url_pattern_match u = true)) ∧
    (∀ content, openai_result_citations content = (parse_and_validate_json content).2) := by
  refine ⟨hnd.filter _, ?_, fun _ => rfl⟩
  intro u
  unfold gemini_merge_citations validate_urls
  rw [List.mem_filter, hmem u, List.mem_append]

/-- C7 witness: a concrete iteration order (`List.dedup`) on concrete
citation lists satisfies the set-oracle constraints and yields a
duplicate-free, URL-filtered merge. -/
theorem citations_merge_amended_witness :
    (gemini_merge_citations List.dedup ["https://b.test/", "notaurl"]
      ["https://a.test/", "https://b.test/"]).Nodup ∧
    (∀ u, u ∈ gemini_merge_citations List.dedup ["https://b.test/", "notaurl"]
        ["https://a.test/", "https://b.test/"] ↔
      ((u ∈ ["https://b.test/", "notaurl"] ∨ u ∈ ["https://a.test/", "https://b.test/"]) ∧
        url_pattern_match u = true)) ∧
    (∀ content, openai_result_citations content = (parse_and_validate_json content).2) :=
  citations_merge_amended List.dedup _ _ (by decide) (fun _ => List.mem_dedup)

theorem deliver_attempt_2xx (M : ℕ) (j : ℚ) (d : DeliveryState) (c : ℕ) (b : String)
    (h1 : 200 ≤ c) (h2 : c < 300) :
    deliver_attempt M j d (.httpStatus c b) =
      ({ d with attempts := d.attempts + 1, status := .succeeded,
                responseBody := some (truncateBody b) }, false) := by
  simp [deliver_attempt, deliver_attempt_inner, h1, h2]

theorem deliver_attempt_4xx (M : ℕ) (j : ℚ) (d : DeliveryState) (c : ℕ) (b : String)
    (h1 : 400 ≤ c) (h2 : c < 500) :
    deliver_attempt M j d (.httpStatus c b) =
      ({ d with attempts := d.attempts + 1, status := .failed,
                lastError := some ("HTTP " ++ toString c ++ ": " ++ truncateBody b),
                responseBody := some (truncateBody b) }, false) := by
  have hn2 : ¬ (200 ≤ c ∧ c < 300) := by omega
  simp [deliver_attempt, deliver_attempt_inner, hn2, h1, h2]

/-- A retriable outcome below the attempt budget: the retry is enqueued and
the catch-all commits a failed state with the overwritten last_error. -/
theorem deliver_attempt_retriable (M : ℕ) (j : ℚ) (d : DeliveryState) (o : PartnerOutcome)
    (ho : isRetriableOutcome o = true) (hM : d.attempts + 1 < M) :
    deliver_attempt M j d o =
      ({ d with attempts := d.attempts + 1, status := .failed,
                lastError := some "Unexpected error: Retry" }, true) := by
  cases o with
  | httpStatus c b =>
    simp only [isRetriableOutcome, Bool.and_eq_true, Bool.not_eq_eq_eq_not, Bool.not_true,
      decide_eq_false_iff_not] at ho
    simp [deliver_attempt, deliver_attempt_inner, ho.1, ho.2, hM]
  | timeout =>
    simp [deliver_attempt, deliver_attempt_inner, hM]
  | networkError m =>
    simp [deliver_attempt, deliver_attempt_inner, hM]

/-- A retriable outcome at the exhausted budget: terminal failure, no retry
enqueued. -/
theorem deliver_attempt_exhausted (M : ℕ) (j : ℚ) (d : DeliveryState) (o : PartnerOutcome)
    (ho : isRetriableOutcome o = true) (hM : ¬ (d.attempts + 1 < M)) :
    (deliver_attempt M j d o).1.status = .failed ∧
    (deliver_attempt M j d o).1.attempts = d.attempts + 1 ∧
    (deliver_attempt M j d o).2 = false := by
  cases o with
  | httpStatus c b =>
    simp only [isRetriableOutcome, Bool.and_eq_true, Bool.not_eq_eq_eq_not, Bool.not_true,
      decide_eq_false_iff_not] at ho
    simp [deliver_attempt, deliver_attempt_inner, ho.1, ho.2, hM]
  | timeout =>
    simp [deliver_attempt, deliver_attempt_inner, hM]
  | networkError m =>
    simp [deliver_attempt, deliver_attempt_inner, hM]

/-- Whatever the prior state, a task execution ends in `succeeded` exactly
on a 2xx response. -/
theorem deliver_attempt_succeeded_iff (M : ℕ) (j : ℚ) (d : DeliveryState)
    (o : PartnerOutcome) :
    (deliver_attempt M j d o).1.status = .succeeded ↔ is2xxOutcome o = true := by
  cases o with
  | httpStatus c b =>
    by_cases h2 : 200 ≤ c ∧ c < 300
    · simp [deliver_attempt, deliver_attempt_inner, is2xxOutcome, h2]
    · by_cases h4 : 400 ≤ c ∧ c < 500
      · simp [deliver_attempt, deliver_attempt_inner, is2xxOutcome, h2, h4]
      · by_cases hM : d.attempts + 1 < M
        · simp [deliver_attempt, deliver_attempt_inner, is2xxOutcome, h2, h4, hM]
        · simp [deliver_attempt, deliver_attempt_inner, is2xxOutcome, h2, h4, hM]
  | timeout =>
    by_cases hM : d.attempts + 1 < M
    · simp [deliver_attempt, deliver_attempt_inner, is2xxOutcome, hM]
    · simp [deliver_attempt, deliver_attempt_inner, is2xxOutcome, hM]
  | networkError m =>
    by_cases hM : d.attempts + 1 < M
    · simp [deliver_attempt, deliver_attempt_inner, is2xxOutcome, hM]
    · simp [deliver_attempt, deliver_attempt_inner, is2xxOutcome, hM]

/-- The state the catch-all commits after `task.retry` has enqueued the
retry: attempts advanced, status transiently failed, last_error
overwritten. -/
def retryCommitted (d : DeliveryState) : DeliveryState :=
  { d with attempts := d.attempts + 1, status := .failed,
           lastError := some "Unexpected error: Retry" }

theorem retryCommitted_attempts (d : DeliveryState) :
    (retryCommitted d).attempts = d.attempts + 1 := rfl

/-- Consuming a prefix of retriable outcomes below the budget: each one
enqueues its retry, so the run goes on, having only advanced the attempt
counter. -/
theorem deliver_run_append_retriable (M : ℕ) :
    ∀ (pre : List PartnerOutcome) (jit : List ℚ) (d : DeliveryState)
      (rest : List PartnerOutcome),
      (∀ o ∈ pre, isRetriableOutcome o = true) →
      d.attempts + pre.length < M →
      ∃ d', deliver_run M jit d (pre ++ rest) =
          deliver_run M (jit.drop pre.length) d' rest ∧
        d'.attempts = d.attempts + pre.length := by
  intro pre
  induction pre with
  | nil =>
    intro jit d rest _ _
    exact ⟨d, rfl, rfl⟩
  | cons o pre₂ ih =>
    intro jit d rest hall hM
    rw [List.length_cons] at hM
    have ho : isRetriableOutcome o = true := hall o (List.mem_cons_self o pre₂)
    have hM1 : d.attempts + 1 < M := by omega
    have hrc : deliver_attempt M (jit.headD 0) d o = (retryCommitted d, true) :=
      deliver_attempt_retriable M (jit.headD 0) d o ho hM1
    obtain ⟨d', heq, hatt⟩ := ih jit.tail (retryCommitted d) rest
      (fun q hq => hall q (List.mem_cons_of_mem _ hq))
      (by rw [retryCommitted_attempts]; omega)
    have hstep : deliver_run M jit d ((o :: pre₂) ++ rest) =
        deliver_run M jit.tail (retryCommitted d) (pre₂ ++ rest) := by
      show deliver_run M jit d (o :: (pre₂ ++ rest)) = _
      simp only [deliver_run, hrc, if_true]
    refine ⟨d', ?_, ?_⟩
    · rw [hstep, heq, ← List.drop_one, List.drop_drop, List.length_cons, Nat.add_comm]
    · rw [hatt, retryCommitted_attempts, List.length_cons]
      omega

/-- The run ends `succeeded` only if the prior state already was, or some
outcome in the sequence is a 2xx. -/
theorem deliver_run_succeeded_source (M : ℕ) :
    ∀ (os : List PartnerOutcome) (jit : List ℚ) (d : DeliveryState),
      (deliver_run M jit d os).status = .succeeded →
      d.status = .succeeded ∨
        ∃ i, ∃ h : i < os.length, is2xxOutcome (os.get ⟨i, h⟩) = true := by
  intro os
  induction os with
  | nil => intro jit d h; exact Or.inl h
  | cons o os₂ ih =>
    intro jit d h
    simp only [deliver_run] at h
    by_cases hr : (deliver_attempt M (jit.headD 0) d o).2 = true
    · rw [if_pos hr] at h
      rcases ih jit.tail _ h with h₁ | ⟨i, hi, h2⟩
      · refine Or.inr ⟨0, by simp, ?_⟩
        exact (deliver_attempt_succeeded_iff M (jit.headD 0) d o).mp h₁
      · exact Or.inr ⟨i + 1, Nat.succ_lt_succ hi, h2⟩
    · rw [if_neg hr] at h
      refine Or.inr ⟨0, by simp, ?_⟩
      exact (deliver_attempt_succeeded_iff M (jit.headD 0) d o).mp h

/-- C1 counterexample: `task.retry` enqueues the retry and then raises; the
trailing `except Exception` intercepts the raised `Retry` and *commits* a
Delivery state with status = failed, attempts = 1 — although 1 ≠
MaxDeliveryAttempts (5) and 503 is no 4xx — and overwrites last_error with
the catch-all message.  A retry is pending (the boolean), so this failed
state is not final, and the claim's "whenever status = failed, either
attempts = MaxDeliveryAttempts or a 4xx was observed" is false of the
persisted states. -/
theorem delivery_transient_failed_counterexample :
    (deliver_attempt 5 0 dInit (.httpStatus 503 "busy")).1.status = .failed ∧
    (deliver_attempt 5 0 dInit (.httpStatus 503 "busy")).1.attempts = 1 ∧
    (deliver_attempt 5 0 dInit (.httpStatus 503 "busy")).1.lastError =
      some "Unexpected error: Retry" ∧
    (deliver_attempt 5 0 dInit (.httpStatus 503 "busy")).2 = true ∧
    (1 : ℕ) ≠ 5 ∧ ¬ (400 ≤ 503 ∧ 503 < 500) := by
  refine ⟨rfl, rfl, rfl, rfl, by norm_num, by norm_num⟩

/-- C1 (amended): the final-status characterization holds.  After any
prefix `pre` of retriable outcomes within the attempt budget: a 2xx ends
the delivery `succeeded` at attempt `pre.length + 1`; a 4xx ends it
`failed` at that attempt with `HTTP <code>` in last_error and no further
outcome consumed; a retriable outcome at attempt = MaxDeliveryAttempts
ends it `failed` with attempts = MaxDeliveryAttempts; and a run ends
`succeeded` only if some outcome was a 2xx.  (The failed-implies-
(attempts = Max or 4xx) clause holds only of these final states: by the
counterexample, each mid-run retriable outcome transiently commits
failed/attempts < Max with the last_error clobbered.) -/
theorem delivery_final_status (M : ℕ) (jit : List ℚ) (pre rest : List PartnerOutcome)
    (hpre : ∀ o ∈ pre, isRetriableOutcome o = true)
    (hM : pre.length < M) :
    (∀ c b, 200 ≤ c → c < 300 →
      (deliver_run M jit dInit (pre ++ .httpStatus c b :: rest)).status = .succeeded ∧
      (deliver_run M jit dInit (pre ++ .httpStatus c b :: rest)).attempts = pre.length + 1) ∧
    (∀ c b, 400 ≤ c → c < 500 →
      (deliver_run M jit dInit (pre ++ .httpStatus c b :: rest)).status = .failed ∧
      (deliver_run M jit dInit (pre ++ .httpStatus c b :: rest)).attempts = pre.length + 1 ∧
      (deliver_run M jit dInit (pre ++ .httpStatus c b :: rest)).lastError =
        some ("HTTP " ++ toString c ++ ": " ++ truncateBody b)) ∧
    (∀ o, isRetriableOutcome o = true → pre.length + 1 = M →
      (deliver_run M jit dInit (pre ++ o :: rest)).status = .failed ∧
      (deliver_run M jit dInit (pre ++ o :: rest)).attempts = M) ∧
    (∀ os : List PartnerOutcome, (deliver_run M jit dInit os).status = .succeeded →
      ∃ i, ∃ h : i < os.length, is2xxOutcome (os.get ⟨i, h⟩) = true) := by
  have hd0 : dInit.attempts + pre.length < M := by simpa [dInit] using hM
  refine ⟨?_, ?_, ?_, ?_⟩
  · intro c b h1 h2
    obtain ⟨d', heq, hatt⟩ :=
      deliver_run_append_retriable M pre jit dInit (.httpStatus c b :: rest) hpre hd0
    rw [heq]
    have hstop : deliver_run M (jit.drop pre.length) d' (.httpStatus c b :: rest) =
        (deliver_attempt M ((jit.drop pre.length).headD 0) d' (.httpStatus c b)).1 := by
      simp only [deliver_run, deliver_attempt_2xx M _ d' c b h1 h2,
        Bool.false_eq_true, if_false]
    rw [hstop, deliver_attempt_2xx M _ d' c b h1 h2]
    exact ⟨rfl, by simp [hatt, dInit]⟩
  · intro c b h1 h2
    obtain ⟨d', heq, hatt⟩ :=
      deliver_run_append_retriable M pre jit dInit (.httpStatus c b :: rest) hpre hd0
    rw [heq]
    have hstop : deliver_run M (jit.drop pre.length) d' (.httpStatus c b :: rest) =
        (deliver_attempt M ((jit.drop pre.length).headD 0) d' (.httpStatus c b)).1 := by
      simp only [deliver_run, deliver_attempt_4xx M _ d' c b h1 h2,
        Bool.false_eq_true, if_false]
    rw [hstop, deliver_attempt_4xx M _ d' c b h1 h2]
    exact ⟨rfl, by simp [hatt, dInit], rfl⟩
  · intro o ho hpreM
    obtain ⟨d', heq, hatt⟩ :=
      deliver_run_append_retriable M pre jit dInit (o :: rest) hpre hd0
    have hda : d'.attempts = pre.length := by simp [hatt, dInit]
    have hex : ¬ (d'.attempts + 1 < M) := by omega
    obtain ⟨hs, ha, hr⟩ :=
      deliver_attempt_exhausted M ((jit.drop pre.length).headD 0) d' o ho hex
    have hstop : deliver_run M (jit.drop pre.length) d' (o :: rest) =
        (deliver_attempt M ((jit.drop pre.length).headD 0) d' o).1 := by
      simp only [deliver_run, hr, Bool.false_eq_true, if_false]
    rw [heq, hstop]
    exact ⟨hs, by omega⟩
  · intro os hs
    rcases deliver_run_succeeded_source M os jit dInit hs with h₁ | h₂
    · exact absurd h₁ (by simp [dInit])
    · exact h₂

/-- C1 witness: a 503 then a 200 with MaxDeliveryAttempts = 5: the 503
enqueues a retry (despite the swallowed `Retry`), the retried execution
sees the 200, and the delivery ends `succeeded` with attempts = 2. -/
theorem delivery_final_status_witness :
    (deliver_run 5 [0, 0] dInit
        [.httpStatus 503 "busy", .httpStatus 200 "ok"]).status = .succeeded ∧
    (deliver_run 5 [0, 0] dInit
        [.httpStatus 503 "busy", .httpStatus 200 "ok"]).attempts = 2 :=
  (delivery_final_status 5 [0, 0] [.httpStatus 503 "busy"] [] (by decide)
    (by norm_num)).1 200 "ok" (by norm_num) (by norm_num)
